import Mathlib

/-!
# genrsa: progress callback and orchestration of one key-generation run

A shallow embedding of `apps/genrsa.c`.

* `genrsa_cb` is the progress callback.  The sink it writes to is an OpenSSL
  `BIO`; its behaviour is not part of this file, so the callback is parametric
  in the sink (`BIO_METHOD`): a state type with a `write` and a `flush`
  operation, each returning the new sink state and the C return value.
* `genrsa_main` is the command entry point.  Everything it calls lives outside
  this file (option parser, pass phrase helper, BIO layer, EVP key engine, PEM
  encoder).  Those collaborators are the fields of `World`: for each call, the
  value the call returns.  The run is deterministic in the `World`, the initial
  value of the file-level `verbose` flag and the option stream, and it yields
  the return code together with the ordered log of collaborator calls.
  Each branch tests a result the way the C text does: `<= 0` for the three
  `EVP_PKEY_CTX_set_rsa_keygen_*` calls, `== 0` for `EVP_PKEY_keygen`, `NULL`
  for a pointer.
-/

namespace Genrsa

/-! ## Progress callback -/

/-- The two sink operations the callback uses.  `write b cs` is
`BIO_write(b, cs, |cs|)`, `flush b` is `BIO_flush(b)`; both return the next
sink state and the C result (which may signal failure). -/
structure BIO_METHOD (σ : Type) where
  write : σ → List Char → σ × Int
  flush : σ → σ × Int

/-- The progress callback.  `verbose` is the file-level flag, `b` the sink
obtained from `EVP_PKEY_CTX_get_app_data(ctx)`, `p` the event code obtained
from `EVP_PKEY_CTX_get_keygen_info(ctx, 0)`.  Returns the sink afterwards and
the C return value. -/
def genrsa_cb {σ : Type} (verbose : Int) (m : BIO_METHOD σ) (b : σ) (p : Int) : σ × Int :=
  let c : Char := '*'
  if verbose = 0 then
    (b, 1)
  else
    let c := if p = 0 then '.' else c
    let c := if p = 1 then '+' else c
    let c := if p = 2 then '*' else c
    let c := if p = 3 then '\n' else c
    let b := (m.write b [c]).1
    let b := (m.flush b).1
    (b, 1)

/-- The engine calling the registered callback once per progress event, in
emission order; the sink is threaded through the calls. -/
def emitProgress {σ : Type} (verbose : Int) (m : BIO_METHOD σ) (b : σ) (events : List Int) : σ :=
  events.foldl (fun b p => (genrsa_cb verbose m b p).1) b

/-- An in-memory output buffer: every write is appended and reports the number
of characters taken; flushing does nothing. -/
def memSink : BIO_METHOD (List Char) where
  write := fun buf cs => (buf ++ cs, cs.length)
  flush := fun buf => (buf, 1)

/-- The character the specification assigns to each of the four event codes. -/
def progressChar (p : Int) : Option Char :=
  if p = 0 then some '.'
  else if p = 1 then some '+'
  else if p = 2 then some '*'
  else if p = 3 then some '\n'
  else none

/-! ## Command entry point: data -/

/-- Default modulus size, `#define DEFBITS 2048`. -/
def DEFBITS : Int := 2048

/-- Default number of primes, `#define DEFPRIMES 2`. -/
def DEFPRIMES : Int := 2

/-- Public exponent 3 (`RSA_3` of `<openssl/rsa.h>`; the help text of `-3`
reads "Use 3 for the E value"). -/
def RSA_3 : Nat := 0x3

/-- Public exponent F4 (`RSA_F4` of `<openssl/rsa.h>`; the help text of `-F4`
reads "Use F4 (0x10001) for the E value"). -/
def RSA_F4 : Nat := 0x10001

/-- The option codes.  `OPT_R_ENUM` and `OPT_PROV_ENUM` are enumerator groups
defined by the option library; their members are kept as two indexed
families. -/
inductive OPTION_CHOICE
  | OPT_ERR
  | OPT_EOF
  | OPT_HELP
  | OPT_3
  | OPT_F4
  | OPT_ENGINE
  | OPT_OUT
  | OPT_PASSOUT
  | OPT_CIPHER
  | OPT_PRIMES
  | OPT_VERBOSE
  | OPT_R_ENUM (k : Nat)
  | OPT_PROV_ENUM (k : Nat)
  deriving DecidableEq, Repr

open OPTION_CHOICE

/-- One row of the option table: flag name, option code, value type. -/
structure OPTIONS where
  name : String
  retval : OPTION_CHOICE
  valtype : Char
  deriving DecidableEq, Repr

/-- The rows of `genrsa_options[]` that are written out in the file (section
headers, the usage line, the two library-provided groups and the positional
parameter carry no option code of this command and are left out). -/
def genrsa_options : List OPTIONS :=
  [ ⟨"help", OPT_HELP, '-'⟩,
    ⟨"engine", OPT_ENGINE, 's'⟩,
    ⟨"3", OPT_3, '-'⟩,
    ⟨"F4", OPT_F4, '-'⟩,
    ⟨"f4", OPT_F4, '-'⟩,
    ⟨"out", OPT_OUT, '>'⟩,
    ⟨"passout", OPT_PASSOUT, 's'⟩,
    ⟨"primes", OPT_PRIMES, 'p'⟩,
    ⟨"verbose", OPT_VERBOSE, '-'⟩,
    ⟨"", OPT_CIPHER, '-'⟩ ]

/-- One step of the option stream: the code returned by `opt_next()` together
with the text that `opt_arg()` (or, for the cipher option, `opt_unknown()`)
returns for it. -/
structure Opt where
  o : OPTION_CHOICE
  arg : String
  deriving DecidableEq, Repr

/-- An engine handle. -/
abbrev ENGINE := String

/-- A cipher handle. -/
abbrev EVP_CIPHER := String

/-- A generated key handle. -/
abbrev EVP_PKEY := Nat

/-- A handle of an opened output sink. -/
abbrev BIO := Nat

/-- The two `int` variables `opt_int` stores into. -/
inductive IntDest
  | num
  | primes
  deriving DecidableEq, Repr

/-- An argument of a `BIO_printf` call after the format string. -/
inductive PrintfArg
  | int (i : Int)
  | str (s : String)
  deriving DecidableEq, Repr

/-- The collaborators of `genrsa_main`: for every call it makes, the value the
call returns.  `none` stands for a `NULL` result or a failed parse, `false` for
a zero return. -/
structure World where
  /-- Platform constant of `<openssl/rsa.h>`. -/
  OPENSSL_RSA_MAX_MODULUS_BITS : Int
  BN_GENCB_new : Bool
  BN_new : Bool
  setup_engine : String → Option ENGINE
  opt_rand : OPTION_CHOICE → Bool
  opt_provider : OPTION_CHOICE → Bool
  opt_cipher : String → Option EVP_CIPHER
  /-- Parses a decimal `int`; `none` when the text is not an `int`. -/
  opt_int : String → Option Int
  /-- Resolves the pass phrase source; `none` is failure, `some p` success with
  the buffer `p` (`p = none`: no pass phrase, a `NULL` buffer). -/
  app_passwd : Option String → Option (Option String)
  /-- Opens the output sink `outfile` in PEM format with the given `private`
  flag. -/
  bio_open_owner : Option String → Int → Option BIO
  init_gen_str : Option ENGINE → Bool
  EVP_PKEY_CTX_set_rsa_keygen_bits : Int → Int
  BN_set_word : Nat → Bool
  EVP_PKEY_CTX_set_rsa_keygen_pubexp : Nat → Int
  EVP_PKEY_CTX_set_rsa_keygen_primes : Int → Int
  /-- The call `EVP_PKEY_keygen(ctx, &pkey)` for the configured bits, exponent
  and primes: the progress codes it reports through the callback, the `int` it
  returns, and what it leaves in `pkey` (`none`: `NULL`). -/
  EVP_PKEY_keygen : Int → Nat → Int → List Int × Int × Option EVP_PKEY
  /-- The call `EVP_PKEY_get0_RSA(pkey)` followed by `RSA_get0_key`: the public
  exponent of the RSA key inside `pkey`; `none` when `EVP_PKEY_get0_RSA`
  returns `NULL`. -/
  EVP_PKEY_get0_RSA : Option EVP_PKEY → Option Nat
  BN_bn2hex : Nat → Option String
  BN_bn2dec : Nat → Option String
  PEM_write_bio_PrivateKey : BIO → Option EVP_PKEY → Option EVP_CIPHER → Option String → Bool

/-- The four buffers `genrsa_main` releases through `OPENSSL_free`, named after
the variables that hold them. -/
inductive Buffer
  | hexe
  | dece
  | passout
  | ebuf
  deriving DecidableEq, Repr

/-- The log of a run: one entry per collaborator call, in call order, with the
arguments that matter and the value returned.  The read-only getters
(`opt_arg`, `opt_unknown`, `opt_num_rest`, `opt_rest`, `RSA_get0_key` and, in
the callback, `EVP_PKEY_CTX_get_app_data` and `EVP_PKEY_CTX_get_keygen_info`)
are not logged.  `BIO_printf` (format string and arguments), `BIO_write` and
`BIO_flush` are the traffic to `bio_err`.  `EVP_PKEY_keygen r` carries the
`int` the call returned.  `OPENSSL_free b contents` is the release of the
buffer held in variable `b` and carries the contents of that buffer at the
moment it is released. -/
inductive Event
  | BN_GENCB_new (ok : Bool)
  | BN_new (ok : Bool)
  | opt_init
  | opt_next (o : OPTION_CHOICE)
  | opt_help
  | setup_engine (id : String)
  | opt_rand (o : OPTION_CHOICE) (ok : Bool)
  | opt_provider (o : OPTION_CHOICE) (ok : Bool)
  | opt_cipher (name : String) (ok : Bool)
  | opt_int (value : String) (dst : IntDest) (r : Option Int)
  | BIO_printf (fmt : String) (args : List PrintfArg)
  | app_passwd (arg : Option String) (r : Option (Option String))
  | bio_open_owner (outfile : Option String) (priv : Int) (ok : Bool)
  | init_gen_str (eng : Option ENGINE) (ok : Bool)
  | EVP_PKEY_CTX_set_cb
  | EVP_PKEY_CTX_set_app_data
  | EVP_PKEY_CTX_set_rsa_keygen_bits (num : Int) (r : Int)
  | BN_set_word (f4 : Nat) (ok : Bool)
  | EVP_PKEY_CTX_set_rsa_keygen_pubexp (e : Nat) (r : Int)
  | EVP_PKEY_CTX_set_rsa_keygen_primes (primes : Int) (r : Int)
  | EVP_PKEY_keygen (r : Int)
  | BIO_write (cs : List Char)
  | BIO_flush
  | EVP_PKEY_get0_RSA (ok : Bool)
  | BN_bn2hex (r : Option String)
  | BN_bn2dec (r : Option String)
  | PEM_write_bio_PrivateKey (pkey : Option EVP_PKEY) (enc : Option EVP_CIPHER)
      (passout : Option String) (ok : Bool)
  | BN_free
  | BN_GENCB_free
  | EVP_PKEY_CTX_free
  | EVP_PKEY_free
  | BIO_free_all (out : Option BIO)
  | release_engine (eng : Option ENGINE)
  | OPENSSL_free (b : Buffer) (contents : Option String)
  | ERR_print_errors
  deriving DecidableEq, Repr

/-- The local variables of `genrsa_main` that outlive a single statement. -/
structure Locals where
  eng : Option ENGINE
  out : Option BIO
  pkey : Option EVP_PKEY
  enc : Option EVP_CIPHER
  ret : Int
  num : Int
  priv : Int
  primes : Int
  f4 : Nat
  outfile : Option String
  passoutarg : Option String
  passout : Option String
  deriving DecidableEq, Repr

/-- The initialisers of the declarations at the top of `genrsa_main`. -/
def Locals.init : Locals where
  eng := none
  out := none
  pkey := none
  enc := none
  ret := 1
  num := DEFBITS
  priv := 0
  primes := DEFPRIMES
  f4 := RSA_F4
  outfile := none
  passoutarg := none
  passout := none

/-- Machine state while `genrsa_main` runs: locals, the file-level `verbose`
flag and the log so far. -/
structure State where
  l : Locals
  verbose : Int
  trace : List Event
  deriving DecidableEq, Repr

/-- Append one entry to the log. -/
def State.log (s : State) (e : Event) : State :=
  { s with trace := s.trace ++ [e] }

/-- What a finished run leaves behind. -/
structure Run where
  ret : Int
  trace : List Event
  verbose : Int
  deriving DecidableEq, Repr

/-- The sink `bio_err` as seen by the callback: writes and flushes are entered
in the log. -/
def errSink : BIO_METHOD (List Event) where
  write := fun t cs => (t ++ [Event.BIO_write cs], cs.length)
  flush := fun t => (t ++ [Event.BIO_flush], 1)

/-- Append entries to the log. -/
def State.logs (s : State) (es : List Event) : State :=
  { s with trace := s.trace ++ es }

/-- Assignment to one of the locals. -/
def State.set (s : State) (f : Locals → Locals) : State :=
  { s with l := f s.l }

/-! ## Command entry point: control flow -/

/-- The statements at label `opthelp`, which then jump to `end`. -/
def opthelp (prog : String) (s : State) : State :=
  s.log (.BIO_printf "%s: Use -help for summary.\n" [.str prog])

/-- The option loop `while ((o = opt_next()) != OPT_EOF) switch (o) ...`.
The boolean is `true` when the loop ran to `OPT_EOF` and `false` when a case
jumped to `end`. -/
def optLoop (w : World) (prog : String) : List Opt → State → Bool × State
  | [], s => (true, s.log (.opt_next OPT_EOF))
  | x :: xs, s =>
    let s := s.log (.opt_next x.o)
    match x.o with
    | OPT_EOF => (true, s)
    | OPT_ERR => (false, opthelp prog s)
    | OPT_HELP => (false, (s.set fun l => { l with ret := 0 }).log .opt_help)
    | OPT_3 => optLoop w prog xs (s.set fun l => { l with f4 := RSA_3 })
    | OPT_F4 => optLoop w prog xs (s.set fun l => { l with f4 := RSA_F4 })
    | OPT_OUT => optLoop w prog xs (s.set fun l => { l with outfile := some x.arg })
    | OPT_ENGINE =>
      optLoop w prog xs
        ((s.log (.setup_engine x.arg)).set fun l => { l with eng := w.setup_engine x.arg })
    | OPT_R_ENUM k =>
      if w.opt_rand (OPT_R_ENUM k) then
        optLoop w prog xs (s.log (.opt_rand (OPT_R_ENUM k) true))
      else
        (false, s.log (.opt_rand (OPT_R_ENUM k) false))
    | OPT_PROV_ENUM k =>
      if w.opt_provider (OPT_PROV_ENUM k) then
        optLoop w prog xs (s.log (.opt_provider (OPT_PROV_ENUM k) true))
      else
        (false, s.log (.opt_provider (OPT_PROV_ENUM k) false))
    | OPT_PASSOUT => optLoop w prog xs (s.set fun l => { l with passoutarg := some x.arg })
    | OPT_CIPHER =>
      match w.opt_cipher x.arg with
      | none => (false, s.log (.opt_cipher x.arg false))
      | some c =>
        optLoop w prog xs
          ((s.log (.opt_cipher x.arg true)).set fun l => { l with enc := some c })
    | OPT_PRIMES =>
      match w.opt_int x.arg with
      | none => (false, s.log (.opt_int x.arg .primes none))
      | some n =>
        optLoop w prog xs
          ((s.log (.opt_int x.arg .primes (some n))).set fun l => { l with primes := n })
    | OPT_VERBOSE => optLoop w prog xs { s with verbose := 1 }

/-- Format string of the advisory printed for an oversized modulus. -/
def sizeWarning : String :=
  "Warning: It is not recommended to use more than %d bit for RSA keys.\n         Your key size is %d! Larger key size may behave not as expected.\n"

/-- The call `PEM_write_bio_PrivateKey(out, pkey, enc, NULL, 0, NULL, passout)`
and, when it succeeds, `ret = 0`. -/
def writeKey (w : World) (out : BIO) (pkey : Option EVP_PKEY) (s : State) : State :=
  if !w.PEM_write_bio_PrivateKey out pkey s.l.enc s.l.passout then
    s.log (.PEM_write_bio_PrivateKey pkey s.l.enc s.l.passout false)
  else
    (s.log (.PEM_write_bio_PrivateKey pkey s.l.enc s.l.passout true)).set
      fun l => { l with ret := 0 }

/-- The block `if (verbose) ...` that reads the public exponent back, renders
it with `BN_bn2hex` and `BN_bn2dec`, prints it when both renderings exist and
releases both renderings, followed by `writeKey`.  `pkey` is whatever
`EVP_PKEY_keygen` left in the variable, `NULL` included. -/
def echoAndWrite (w : World) (out : BIO) (pkey : Option EVP_PKEY) (s : State) : State :=
  if s.verbose ≠ 0 then
    match w.EVP_PKEY_get0_RSA pkey with
    | none =>
      (s.log (.EVP_PKEY_get0_RSA false)).log (.BIO_printf "Error cannot access RSA e\n" [])
    | some e =>
      let s := s.log (.EVP_PKEY_get0_RSA true)
      let s := s.logs [.BN_bn2hex (w.BN_bn2hex e), .BN_bn2dec (w.BN_bn2dec e)]
      let s := s.logs
        (match w.BN_bn2hex e, w.BN_bn2dec e with
          | some hexe, some dece => [.BIO_printf "e is %s (0x%s)\n" [.str dece, .str hexe]]
          | _, _ => [])
      let s := s.logs [.OPENSSL_free .hexe (w.BN_bn2hex e), .OPENSSL_free .dece (w.BN_bn2dec e)]
      writeKey w out pkey s
  else
    writeKey w out pkey s

/-- From `EVP_PKEY_CTX_set_cb` down to `ret = 0`: the three configuration
calls, each failing on a return `<= 0`, generation with its progress
callbacks, failing on the return 0 only (`if (!EVP_PKEY_keygen(ctx, &pkey))`),
then `echoAndWrite`. -/
def configureAndGenerate (w : World) (out : BIO) (s : State) : State :=
  let s := s.log .EVP_PKEY_CTX_set_cb
  let s := s.log .EVP_PKEY_CTX_set_app_data
  let r := w.EVP_PKEY_CTX_set_rsa_keygen_bits s.l.num
  let s := s.log (.EVP_PKEY_CTX_set_rsa_keygen_bits s.l.num r)
  if r ≤ 0 then
    s.log (.BIO_printf "Error setting RSA length\n" [])
  else if !w.BN_set_word s.l.f4 then
    (s.log (.BN_set_word s.l.f4 false)).log (.BIO_printf "Error allocating RSA public exponent\n" [])
  else
    let s := s.log (.BN_set_word s.l.f4 true)
    let r := w.EVP_PKEY_CTX_set_rsa_keygen_pubexp s.l.f4
    let s := s.log (.EVP_PKEY_CTX_set_rsa_keygen_pubexp s.l.f4 r)
    if r ≤ 0 then
      s.log (.BIO_printf "Error setting RSA public exponent\n" [])
    else
      let r := w.EVP_PKEY_CTX_set_rsa_keygen_primes s.l.primes
      let s := s.log (.EVP_PKEY_CTX_set_rsa_keygen_primes s.l.primes r)
      if r ≤ 0 then
        s.log (.BIO_printf "Error setting number of primes\n" [])
      else
        let s := s.logs
          (if s.verbose ≠ 0 then
            [.BIO_printf "Generating RSA private key, %d bit long modulus (%d primes)\n"
              [.int s.l.num, .int s.l.primes]]
          else [])
        let g := w.EVP_PKEY_keygen s.l.num s.l.f4 s.l.primes
        let s := s.log (.EVP_PKEY_keygen g.2.1)
        let s : State := { s with trace := emitProgress s.verbose errSink s.trace g.1 }
        let s := s.set fun l => { l with pkey := g.2.2 }
        if g.2.1 = 0 then
          s.log (.BIO_printf "Error generating RSA key\n" [])
        else
          echoAndWrite w out g.2.2 s

/-- From `private = 1` on: pass phrase, sink, engine context, then
`configureAndGenerate`.  Returns the state on arrival at label `end`. -/
def generate (w : World) (s : State) : State :=
  let s := s.set fun l => { l with priv := 1 }
  match w.app_passwd s.l.passoutarg with
  | none =>
    (s.log (.app_passwd s.l.passoutarg none)).log (.BIO_printf "Error getting password\n" [])
  | some pass =>
    let s := (s.log (.app_passwd s.l.passoutarg (some pass))).set fun l => { l with passout := pass }
    match w.bio_open_owner s.l.outfile s.l.priv with
    | none => s.log (.bio_open_owner s.l.outfile s.l.priv false)
    | some h =>
      let s := (s.log (.bio_open_owner s.l.outfile s.l.priv true)).set fun l => { l with out := some h }
      if !w.init_gen_str s.l.eng then
        s.log (.init_gen_str s.l.eng false)
      else
        configureAndGenerate w h (s.log (.init_gen_str s.l.eng true))

/-- From `argc = opt_num_rest()` on: the check of the positional arguments,
then `generate`.  `rest` is `opt_rest()`.  Returns the state on arrival at
label `end`. -/
def afterOptions (w : World) (prog : String) (rest : List String) (s : State) : State :=
  match rest with
  | [a] =>
    match w.opt_int a with
    | none => s.log (.opt_int a .num none)
    | some n =>
      let s := (s.log (.opt_int a .num (some n))).set fun l => { l with num := n }
      if n ≤ 0 then
        s
      else
        let s := s.logs
          (if n > w.OPENSSL_RSA_MAX_MODULUS_BITS then
            [.BIO_printf sizeWarning [.int w.OPENSSL_RSA_MAX_MODULUS_BITS, .int n]]
          else [])
        generate w s
  | [] => generate w s
  | _ :: _ :: _ => opthelp prog (s.log (.BIO_printf "Extra arguments given.\n" []))

/-- The calls from label `end` to `return ret`: the releases, among them
`OPENSSL_free(passout)` with the pass phrase buffer as it is at that moment
and `OPENSSL_free(ebuf)`, which is always `NULL`, and, for a non-zero `ret`,
the error report. -/
def cleanupLog (l : Locals) : List Event :=
  [ .BN_free, .BN_GENCB_free, .EVP_PKEY_CTX_free, .EVP_PKEY_free,
    .BIO_free_all l.out, .release_engine l.eng,
    .OPENSSL_free .passout l.passout, .OPENSSL_free .ebuf none ] ++
  (if l.ret ≠ 0 then [.ERR_print_errors] else [])

/-- The statements from label `end` to `return ret`. -/
def cleanup (s : State) : Run where
  ret := s.l.ret
  trace := s.trace ++ cleanupLog s.l
  verbose := s.verbose

/-- The command entry point.  `verbose` is the value of the file-level flag on
entry, `prog` the program name returned by `opt_init`, `opts` the option
stream, `rest` the positional arguments left after the options. -/
def genrsa_main (w : World) (verbose : Int) (prog : String) (opts : List Opt)
    (rest : List String) : Run :=
  let s : State := ⟨Locals.init, verbose, [.BN_GENCB_new w.BN_GENCB_new, .BN_new w.BN_new]⟩
  if !w.BN_new || !w.BN_GENCB_new then
    cleanup s
  else
    match optLoop w prog opts (s.log .opt_init) with
    | (false, s) => cleanup s
    | (true, s) => cleanup (afterOptions w prog rest s)

/-! ## Vocabulary for statements about a run -/

/-- The key-engine calls: context initialisation, the three configuration
calls and generation. -/
def Event.isEngineCall : Event → Bool
  | .init_gen_str _ _ => true
  | .EVP_PKEY_CTX_set_rsa_keygen_bits _ _ => true
  | .EVP_PKEY_CTX_set_rsa_keygen_pubexp _ _ => true
  | .EVP_PKEY_CTX_set_rsa_keygen_primes _ _ => true
  | .EVP_PKEY_keygen _ => true
  | _ => false

/-- Any attempt to open the output sink. -/
def Event.isSinkOpen : Event → Bool
  | .bio_open_owner _ _ _ => true
  | _ => false

/-- An attempt to open the output sink that succeeded with `private = 1`. -/
def Event.isOwnerOnlyOpen : Event → Bool
  | .bio_open_owner _ priv ok => decide (priv = 1) && ok
  | _ => false

/-- A successful key generation: `EVP_PKEY_keygen` returned a positive value
(the test the three configuration calls are put to). -/
def Event.isKeygenOk : Event → Bool
  | .EVP_PKEY_keygen r => decide (0 < r)
  | _ => false

/-- Any attempt to write the key. -/
def Event.isKeyWrite : Event → Bool
  | .PEM_write_bio_PrivateKey _ _ _ _ => true
  | _ => false

/-- Scanning the log from the start, no `q` entry is met until a `p` entry has
been met: every `q` is preceded by a `p`. -/
def noneBefore (q p : Event → Bool) : List Event → Bool
  | [] => true
  | e :: es => p e || (!q e && noneBefore q p es)

/-- A call that reports failure: a failed allocation, an option the parser or
a helper rejects, a rejected positional argument, and every failed
collaborator call after that (`NULL`, `false`, or a return `<= 0` of an
engine call). -/
def Event.isFailure : Event → Bool
  | .BN_GENCB_new ok => !ok
  | .BN_new ok => !ok
  | .opt_next o => decide (o = OPT_ERR)
  | .opt_rand _ ok => !ok
  | .opt_provider _ ok => !ok
  | .opt_cipher _ ok => !ok
  | .opt_int _ .primes r => r.isNone
  | .opt_int _ .num none => true
  | .opt_int _ .num (some n) => decide (n ≤ 0)
  | .BIO_printf fmt _ => decide (fmt = "Extra arguments given.\n")
  | .app_passwd _ r => r.isNone
  | .bio_open_owner _ _ ok => !ok
  | .init_gen_str _ ok => !ok
  | .EVP_PKEY_CTX_set_rsa_keygen_bits _ r => decide (r ≤ 0)
  | .BN_set_word _ ok => !ok
  | .EVP_PKEY_CTX_set_rsa_keygen_pubexp _ r => decide (r ≤ 0)
  | .EVP_PKEY_CTX_set_rsa_keygen_primes _ r => decide (r ≤ 0)
  | .EVP_PKEY_keygen r => decide (r ≤ 0)
  | .EVP_PKEY_get0_RSA ok => !ok
  | .PEM_write_bio_PrivateKey _ _ _ ok => !ok
  | _ => false

/-- The key was written. -/
def Event.isKeyWritten : Event → Bool
  | .PEM_write_bio_PrivateKey _ _ _ ok => ok
  | _ => false

/-- The calls made while the options are read: the parser, its helpers, and
the hint printed at label `opthelp`. -/
def Event.isOptionPhase : Event → Bool
  | .opt_next _ => true
  | .opt_help => true
  | .setup_engine _ => true
  | .opt_rand _ _ => true
  | .opt_provider _ _ => true
  | .opt_cipher _ _ => true
  | .opt_int _ .primes _ => true
  | .BIO_printf fmt _ => decide (fmt = "%s: Use -help for summary.\n")
  | _ => false

/-- The traffic of the progress callback on `bio_err`. -/
def Event.isProgressOutput : Event → Bool
  | .BIO_write _ => true
  | .BIO_flush => true
  | _ => false

/-- What the progress callback enters in the log for a sequence of codes. -/
def progressLog (verbose : Int) (events : List Int) : List Event :=
  emitProgress verbose errSink [] events

/-- Log of `generate` up to a successfully opened sink, for locals `l` and
resolved pass phrase `pass`. -/
def openedLog (l : Locals) (pass : Option String) : List Event :=
  [.app_passwd l.passoutarg (some pass), .bio_open_owner l.outfile 1 true]

/-- Log of `generate` up to and including the length configuration call. -/
def bitsLog (w : World) (l : Locals) (pass : Option String) : List Event :=
  openedLog l pass ++
    [.init_gen_str l.eng true, .EVP_PKEY_CTX_set_cb, .EVP_PKEY_CTX_set_app_data,
      .EVP_PKEY_CTX_set_rsa_keygen_bits l.num (w.EVP_PKEY_CTX_set_rsa_keygen_bits l.num)]

/-- Log of `generate` up to and including the exponent configuration call. -/
def pubexpLog (w : World) (l : Locals) (pass : Option String) : List Event :=
  bitsLog w l pass ++
    [.BN_set_word l.f4 true,
      .EVP_PKEY_CTX_set_rsa_keygen_pubexp l.f4 (w.EVP_PKEY_CTX_set_rsa_keygen_pubexp l.f4)]

/-- Log of `generate` up to and including the prime-count configuration
call. -/
def primesLog (w : World) (l : Locals) (pass : Option String) : List Event :=
  pubexpLog w l pass ++
    [.EVP_PKEY_CTX_set_rsa_keygen_primes l.primes (w.EVP_PKEY_CTX_set_rsa_keygen_primes l.primes)]

/-- Log of `generate` from the pass phrase to the end of key generation, with
the verbose banner and the progress output. -/
def keygenLog (w : World) (l : Locals) (verbose : Int) (pass : Option String) : List Event :=
  primesLog w l pass ++
    (if verbose ≠ 0 then
      [.BIO_printf "Generating RSA private key, %d bit long modulus (%d primes)\n"
        [.int l.num, .int l.primes]]
    else []) ++
    [.EVP_PKEY_keygen (w.EVP_PKEY_keygen l.num l.f4 l.primes).2.1] ++
    progressLog verbose (w.EVP_PKEY_keygen l.num l.f4 l.primes).1

/-- Log of the verbose exponent echo for exponent `e`. -/
def echoLog (w : World) (verbose : Int) (e : Nat) : List Event :=
  if verbose ≠ 0 then
    [.EVP_PKEY_get0_RSA true, .BN_bn2hex (w.BN_bn2hex e), .BN_bn2dec (w.BN_bn2dec e)] ++
      (match w.BN_bn2hex e, w.BN_bn2dec e with
        | some hexe, some dece => [.BIO_printf "e is %s (0x%s)\n" [.str dece, .str hexe]]
        | _, _ => []) ++
      [.OPENSSL_free .hexe (w.BN_bn2hex e), .OPENSSL_free .dece (w.BN_bn2dec e)]
  else []

/-- The state in which the option loop is entered: both allocations were
logged and `opt_init` was called. -/
def loopEntry (w : World) (verbose : Int) : State :=
  ⟨Locals.init, verbose, [.BN_GENCB_new w.BN_GENCB_new, .BN_new w.BN_new, .opt_init]⟩

/-- What the check of the positional arguments logs when it lets the run go
on: nothing without a positional argument, else the parse of `numbits` and,
for an oversized value, the advisory. -/
def numbitsLog (w : World) (rest : List String) : List Event :=
  match rest with
  | [a] =>
    match w.opt_int a with
    | some n =>
      .opt_int a .num (some n) ::
        (if n > w.OPENSSL_RSA_MAX_MODULUS_BITS then
          [.BIO_printf sizeWarning [.int w.OPENSSL_RSA_MAX_MODULUS_BITS, .int n]]
        else [])
    | none => []
  | _ => []

/-- The value of `num` after the check of the positional arguments let the
run go on. -/
def numbitsValue (w : World) (rest : List String) (num : Int) : Int :=
  match rest with
  | [a] => (w.opt_int a).getD num
  | _ => num

/-- The calls made before `generate` is entered: the two allocations, the
option phase, the parse of `numbits`, and the diagnostics of that part. -/
def Event.isSetup : Event → Bool
  | .BN_GENCB_new _ => true
  | .BN_new _ => true
  | .opt_init => true
  | .opt_int _ _ _ => true
  | .BIO_printf fmt _ =>
    decide (fmt = "%s: Use -help for summary.\n") || decide (fmt = "Extra arguments given.\n")
      || decide (fmt = sizeWarning)
  | e => e.isOptionPhase

/-- The calls made from label `end` on. -/
def Event.isCleanup : Event → Bool
  | .BN_free => true
  | .BN_GENCB_free => true
  | .EVP_PKEY_CTX_free => true
  | .EVP_PKEY_free => true
  | .BIO_free_all _ => true
  | .release_engine _ => true
  | .OPENSSL_free _ _ => true
  | .ERR_print_errors => true
  | _ => false

/-- An exponent-selecting option code. -/
def isExponentFlag (o : OPTION_CHOICE) : Bool :=
  decide (o = OPT_3) || decide (o = OPT_F4)

/-- The option codes the loop gets from `opt_next()` before `OPT_EOF`. -/
def consumed (opts : List Opt) : List OPTION_CHOICE :=
  (opts.map fun x => x.o).takeWhile fun o => decide (o ≠ OPT_EOF)

/-- The exponent in force after a sequence of option codes when `current` was
in force before it: the value of the last exponent flag, 3 for `-3` and 65537
for `-F4`/`-f4`, and `current` when there is none. -/
def exponentAfter (current : Nat) (flags : List OPTION_CHOICE) : Nat :=
  match (flags.filter isExponentFlag).getLast? with
  | some OPT_3 => 3
  | some _ => 65537
  | none => current

/-- The exponent the specification selects for a sequence of option codes: the
value of the last exponent flag, and 65537 when there is none. -/
def selectedExponent (flags : List OPTION_CHOICE) : Nat :=
  exponentAfter 65537 flags

/-- A buffer whose bytes are all zero (a `NULL` buffer has none). -/
def isCleared (buf : Option String) : Bool :=
  match buf with
  | none => true
  | some s => s.toList.all fun c => decide (c = Char.ofNat 0)

/-- Every collaborator call up to, not including, the prime-count
configuration succeeds whatever its arguments. -/
def World.succeedsBeforePrimes (w : World) : Prop :=
  (∀ a, (w.app_passwd a).isSome = true) ∧
  (∀ f p, (w.bio_open_owner f p).isSome = true) ∧
  (∀ e, w.init_gen_str e = true) ∧
  (∀ n, 0 < w.EVP_PKEY_CTX_set_rsa_keygen_bits n) ∧
  (∀ x, w.BN_set_word x = true) ∧
  (∀ x, 0 < w.EVP_PKEY_CTX_set_rsa_keygen_pubexp x)

/-- Every collaborator call from the pass phrase on succeeds whatever its
arguments. -/
def World.allSucceed (w : World) : Prop :=
  w.succeedsBeforePrimes ∧
  (∀ n, 0 < w.EVP_PKEY_CTX_set_rsa_keygen_primes n) ∧
  (∀ n e p, 0 < (w.EVP_PKEY_keygen n e p).2.1 ∧ (w.EVP_PKEY_keygen n e p).2.2.isSome = true) ∧
  (∀ k, (w.EVP_PKEY_get0_RSA (some k)).isSome = true) ∧
  (∀ o k c p, w.PEM_write_bio_PrivateKey o (some k) c p = true)

/-! ## Sample collaborators -/

/-- A world in which every collaborator succeeds: decimal parsing, pass phrase
`secret` for any source, sink handle 7, an engine that rejects prime counts
below 2 when they are configured and reports the progress codes `0,1,2,3,0,3`
while generating key 42 (return value 1); a `NULL` key has no exponent and is
not encoded. -/
def sampleWorld : World where
  OPENSSL_RSA_MAX_MODULUS_BITS := 16384
  BN_GENCB_new := true
  BN_new := true
  setup_engine := fun id => some id
  opt_rand := fun _ => true
  opt_provider := fun _ => true
  opt_cipher := fun c => some c
  opt_int := fun s =>
    if s = "20000" then some 20000
    else if s = "2048" then some 2048
    else if s = "1" then some 1
    else if s = "0" then some 0
    else if s = "-1" then some (-1)
    else none
  app_passwd := fun a => match a with
    | none => some none
    | some _ => some (some "secret")
  bio_open_owner := fun _ _ => some 7
  init_gen_str := fun _ => true
  EVP_PKEY_CTX_set_rsa_keygen_bits := fun _ => 1
  BN_set_word := fun _ => true
  EVP_PKEY_CTX_set_rsa_keygen_pubexp := fun _ => 1
  EVP_PKEY_CTX_set_rsa_keygen_primes := fun n => if n < 2 then -2 else 1
  EVP_PKEY_keygen := fun _ _ _ => ([0, 1, 2, 3, 0, 3], 1, some 42)
  EVP_PKEY_get0_RSA := fun k => k.map fun _ => 65537
  BN_bn2hex := fun _ => some "010001"
  BN_bn2dec := fun _ => some "65537"
  PEM_write_bio_PrivateKey := fun _ k _ _ => k.isSome

/-- A world like `sampleWorld` whose engine accepts every prime count. -/
def lenientWorld : World :=
  { sampleWorld with EVP_PKEY_CTX_set_rsa_keygen_primes := fun _ => 1 }

/-- A world like `sampleWorld` in which the output sink cannot be opened. -/
def noSinkWorld : World :=
  { sampleWorld with bio_open_owner := fun _ _ => none }

/-- A world like `sampleWorld` whose engine accepts every prime count when it
is configured and fails generation, with return value 0, for a count below
2. -/
def lateCheckWorld : World :=
  { sampleWorld with
    EVP_PKEY_CTX_set_rsa_keygen_primes := fun _ => 1
    EVP_PKEY_keygen := fun _ _ p =>
      if p < 2 then ([], 0, none) else ([0, 1, 2, 3, 0, 3], 1, some 42) }

/-- A world like `sampleWorld` whose engine fails generation and reports it
with the negative return value -1, leaving `pkey` `NULL`. -/
def failedKeygenWorld : World :=
  { sampleWorld with EVP_PKEY_keygen := fun _ _ _ => ([], -1, none) }

/-- A world like `failedKeygenWorld` whose PEM encoder reports success whatever
it is handed. -/
def failedKeygenWrittenWorld : World :=
  { failedKeygenWorld with PEM_write_bio_PrivateKey := fun _ _ _ _ => true }

/-! ## The progress callback -/

theorem genrsa_cb_verbose {σ : Type} (v : Int) (hv : v ≠ 0) (m : BIO_METHOD σ) (b : σ)
    (p : Int) :
    genrsa_cb v m b p =
      ((m.flush (m.write b
        [if p = 3 then '\n' else if p = 2 then '*' else if p = 1 then '+'
          else if p = 0 then '.' else '*']).1).1, 1) := by
  unfold genrsa_cb
  simp only [hv, if_false]

theorem emitProgress_memSink (v : Int) (hv : v ≠ 0) (events : List Int) :
    ∀ buf : List Char,
      emitProgress v memSink buf events =
        buf ++ events.map fun p =>
          if p = 3 then '\n' else if p = 2 then '*' else if p = 1 then '+'
            else if p = 0 then '.' else '*' := by
  induction events with
  | nil => intro buf; simp [emitProgress]
  | cons p ps ih =>
    intro buf
    have step := ih (genrsa_cb v memSink buf p).1
    unfold emitProgress at step ⊢
    rw [List.foldl_cons, step, genrsa_cb_verbose v hv]
    simp [memSink]

/-- C1. With verbose enabled and every event code in {0,1,2,3}: one call of
the callback hands the sink exactly one write, of the single character the
mapping 0 -> '.', 1 -> '+', 2 -> '*', 3 -> newline assigns to the code,
followed by a flush, and returns 1; fed in order to an output buffer, a
sequence of such events appends exactly the mapped characters, one per event
and in emission order; the events 0,1,2,3,0,3 produce ".+*\n.\n". -/
theorem genrsa_cb_progress_stream (v : Int) (hv : v ≠ 0) (events : List Int)
    (hcodes : ∀ p ∈ events, p = 0 ∨ p = 1 ∨ p = 2 ∨ p = 3) :
    (∀ (σ : Type) (m : BIO_METHOD σ) (b : σ) (p : Int) (c : Char),
        progressChar p = some c →
          genrsa_cb v m b p = ((m.flush (m.write b [c]).1).1, 1)) ∧
    (∀ buf : List Char,
        (emitProgress v memSink buf events).map some = buf.map some ++ events.map progressChar) ∧
    emitProgress v memSink [] [0, 1, 2, 3, 0, 3] = ".+*\n.\n".toList := by
  refine ⟨?_, ?_, ?_⟩
  · intro σ m b p c hc
    rw [genrsa_cb_verbose v hv]
    unfold progressChar at hc
    split_ifs at hc with h0 h1 h2 h3 <;> simp at hc <;> subst hc <;> simp_all
  · intro buf
    rw [emitProgress_memSink v hv, List.map_append, List.map_map]
    congr 1
    apply List.map_congr_left
    intro p hp
    rcases hcodes p hp with h | h | h | h <;> subst h <;> simp [progressChar]
  · rw [emitProgress_memSink v hv]
    decide

theorem genrsa_cb_progress_stream_witness :
    emitProgress 1 memSink [] [0, 1, 2, 3, 0, 3] = ['.', '+', '*', '\n', '.', '\n'] :=
  (genrsa_cb_progress_stream 1 (by decide) [0, 1, 2, 3, 0, 3] (by decide)).2.2

/-- C2. For every event code, either value of the verbosity flag and any sink
whatsoever (its write and flush may fail with any result), the callback
returns 1; with verbosity disabled the sink is left exactly as it was. -/
theorem genrsa_cb_always_continues {σ : Type} (v : Int) (m : BIO_METHOD σ) (b : σ) (p : Int) :
    (genrsa_cb v m b p).2 = 1 ∧ (genrsa_cb 0 m b p).1 = b := by
  constructor
  · unfold genrsa_cb
    by_cases hv : v = 0 <;> simp [hv]
  · simp [genrsa_cb]

/-- C10. With verbose enabled and an event code outside {0,1,2,3}, the
callback hands the sink exactly one write, of the single character '*',
followed by a flush, and returns 1; so for every event sequence whatsoever an
output buffer grows by exactly one character per event. -/
theorem genrsa_cb_unknown_code (v : Int) (hv : v ≠ 0) :
    (∀ (σ : Type) (m : BIO_METHOD σ) (b : σ) (p : Int),
        p ≠ 0 → p ≠ 1 → p ≠ 2 → p ≠ 3 →
          genrsa_cb v m b p = ((m.flush (m.write b ['*']).1).1, 1)) ∧
    (∀ (p : Int) (buf : List Char), p ≠ 0 → p ≠ 1 → p ≠ 2 → p ≠ 3 →
        genrsa_cb v memSink buf p = (buf ++ ['*'], 1)) ∧
    (∀ (events : List Int) (buf : List Char),
        (emitProgress v memSink buf events).length = buf.length + events.length) := by
  refine ⟨?_, ?_, ?_⟩
  · intro σ m b p h0 h1 h2 h3
    rw [genrsa_cb_verbose v hv]
    simp [h0, h1, h2, h3]
  · intro p buf h0 h1 h2 h3
    rw [genrsa_cb_verbose v hv]
    simp [h0, h1, h2, h3, memSink]
  · intro events buf
    rw [emitProgress_memSink v hv]
    simp

theorem genrsa_cb_unknown_code_witness :
    genrsa_cb 1 memSink ['.'] (-7) = (['.', '*'], 1) ∧
      (emitProgress 1 memSink [] [4, -1, 0, 99]).length = 4 :=
  ⟨(genrsa_cb_unknown_code 1 (by decide)).2.1 (-7) ['.'] (by decide) (by decide) (by decide)
      (by decide),
    (genrsa_cb_unknown_code 1 (by decide)).2.2 [4, -1, 0, 99] []⟩

/-! ## The option loop -/

theorem emitProgress_errSink (v : Int) (events : List Int) :
    ∀ t : List Event, emitProgress v errSink t events = t ++ progressLog v events := by
  induction events with
  | nil => intro t; simp [emitProgress, progressLog]
  | cons p ps ih =>
    intro t
    have h1 := ih (genrsa_cb v errSink t p).1
    have h2 := ih (genrsa_cb v errSink [] p).1
    unfold progressLog at *
    unfold emitProgress at *
    rw [List.foldl_cons, h1, List.foldl_cons, h2, ← List.append_assoc]
    congr 1
    by_cases hv : v = 0
    · simp [genrsa_cb, hv]
    · simp [genrsa_cb, hv, errSink]

theorem progressLog_output (v : Int) (events : List Int) :
    ∀ e ∈ progressLog v events, e.isProgressOutput = true := by
  induction events with
  | nil => intro e he; simp [progressLog, emitProgress] at he
  | cons p ps ih =>
    intro e he
    have h : progressLog v (p :: ps) = (genrsa_cb v errSink [] p).1 ++ progressLog v ps := by
      have := emitProgress_errSink v ps (genrsa_cb v errSink [] p).1
      simpa [progressLog, emitProgress] using this
    rw [h, List.mem_append] at he
    rcases he with he | he
    · by_cases hv : v = 0
      · simp [genrsa_cb, hv] at he
      · simp [genrsa_cb, hv, errSink] at he
        rcases he with he | he <;> subst he <;> rfl
    · exact ih e he

theorem optLoop_inv (w : World) (prog : String) :
    ∀ (opts : List Opt) (s : State), ∃ d : List Event,
      (optLoop w prog opts s).2.trace = s.trace ++ d ∧
      (∀ e ∈ d, e.isOptionPhase = true) ∧
      (optLoop w prog opts s).2.l.out = s.l.out ∧
      (optLoop w prog opts s).2.l.passout = s.l.passout ∧
      ((optLoop w prog opts s).1 = true →
        (optLoop w prog opts s).2.l.ret = s.l.ret ∧ Event.opt_next OPT_EOF ∈ d ∧
          d.any Event.isFailure = false ∧ Event.opt_help ∉ d) ∧
      ((optLoop w prog opts s).1 = false →
        ((optLoop w prog opts s).2.l.ret = s.l.ret ∧ d.any Event.isFailure = true ∧
            Event.opt_help ∉ d) ∨
          ((optLoop w prog opts s).2.l.ret = 0 ∧ Event.opt_help ∈ d ∧
            d.any Event.isFailure = false)) := by
  intro opts
  induction opts with
  | nil =>
    intro s
    exact ⟨[.opt_next OPT_EOF], by simp [optLoop, State.log, Event.isOptionPhase, Event.isFailure]⟩
  | cons x xs ih =>
    intro s
    obtain ⟨o, arg⟩ := x
    cases o
    case OPT_ERR =>
      exact ⟨[.opt_next OPT_ERR, .BIO_printf "%s: Use -help for summary.\n" [.str prog]],
        by simp [optLoop, opthelp, State.log, Event.isOptionPhase, Event.isFailure]⟩
    case OPT_EOF =>
      exact ⟨[.opt_next OPT_EOF],
        by simp [optLoop, State.log, Event.isOptionPhase, Event.isFailure]⟩
    case OPT_HELP =>
      exact ⟨[.opt_next OPT_HELP, .opt_help],
        by simp [optLoop, State.log, State.set, Event.isOptionPhase, Event.isFailure]⟩
    case OPT_3 =>
      obtain ⟨d, h1, h2, h3, h4, h5, h6⟩ :=
        ih ((s.log (.opt_next OPT_3)).set fun l => { l with f4 := RSA_3 })
      refine ⟨[.opt_next OPT_3] ++ d, ?_⟩
      simp only [optLoop]
      simp [State.log, State.set, Event.isOptionPhase, Event.isFailure] at h1 h3 h4 h5 h6 ⊢
      exact ⟨h1, h2, h3, h4, h5, h6⟩
    case OPT_F4 =>
      obtain ⟨d, h1, h2, h3, h4, h5, h6⟩ :=
        ih ((s.log (.opt_next OPT_F4)).set fun l => { l with f4 := RSA_F4 })
      refine ⟨[.opt_next OPT_F4] ++ d, ?_⟩
      simp only [optLoop]
      simp [State.log, State.set, Event.isOptionPhase, Event.isFailure] at h1 h3 h4 h5 h6 ⊢
      exact ⟨h1, h2, h3, h4, h5, h6⟩
    case OPT_OUT =>
      obtain ⟨d, h1, h2, h3, h4, h5, h6⟩ :=
        ih ((s.log (.opt_next OPT_OUT)).set fun l => { l with outfile := some arg })
      refine ⟨[.opt_next OPT_OUT] ++ d, ?_⟩
      simp only [optLoop]
      simp [State.log, State.set, Event.isOptionPhase, Event.isFailure] at h1 h3 h4 h5 h6 ⊢
      exact ⟨h1, h2, h3, h4, h5, h6⟩
    case OPT_PASSOUT =>
      obtain ⟨d, h1, h2, h3, h4, h5, h6⟩ :=
        ih ((s.log (.opt_next OPT_PASSOUT)).set fun l => { l with passoutarg := some arg })
      refine ⟨[.opt_next OPT_PASSOUT] ++ d, ?_⟩
      simp only [optLoop]
      simp [State.log, State.set, Event.isOptionPhase, Event.isFailure] at h1 h3 h4 h5 h6 ⊢
      exact ⟨h1, h2, h3, h4, h5, h6⟩
    case OPT_VERBOSE =>
      obtain ⟨d, h1, h2, h3, h4, h5, h6⟩ :=
        ih ({ s.log (.opt_next OPT_VERBOSE) with verbose := 1 })
      refine ⟨[.opt_next OPT_VERBOSE] ++ d, ?_⟩
      simp only [optLoop]
      simp [State.log, State.set, Event.isOptionPhase, Event.isFailure] at h1 h3 h4 h5 h6 ⊢
      exact ⟨h1, h2, h3, h4, h5, h6⟩
    case OPT_ENGINE =>
      obtain ⟨d, h1, h2, h3, h4, h5, h6⟩ :=
        ih (((s.log (.opt_next OPT_ENGINE)).log (.setup_engine arg)).set
          fun l => { l with eng := w.setup_engine arg })
      refine ⟨[.opt_next OPT_ENGINE, .setup_engine arg] ++ d, ?_⟩
      simp only [optLoop]
      simp [State.log, State.set, Event.isOptionPhase, Event.isFailure] at h1 h3 h4 h5 h6 ⊢
      exact ⟨h1, h2, h3, h4, h5, h6⟩
    case OPT_R_ENUM k =>
      by_cases hc : w.opt_rand (OPT_R_ENUM k) = true
      · obtain ⟨d, h1, h2, h3, h4, h5, h6⟩ :=
          ih ((s.log (.opt_next (OPT_R_ENUM k))).log (.opt_rand (OPT_R_ENUM k) true))
        refine ⟨[.opt_next (OPT_R_ENUM k), .opt_rand (OPT_R_ENUM k) true] ++ d, ?_⟩
        simp only [optLoop]
        simp [State.log, State.set, Event.isOptionPhase, Event.isFailure, hc] at h1 h3 h4 h5 h6 ⊢
        exact ⟨h1, h2, h3, h4, h5, h6⟩
      · refine ⟨[.opt_next (OPT_R_ENUM k), .opt_rand (OPT_R_ENUM k) false], ?_⟩
        simp only [optLoop]
        simp [State.log, State.set, Event.isOptionPhase, Event.isFailure, hc]
    case OPT_PROV_ENUM k =>
      by_cases hc : w.opt_provider (OPT_PROV_ENUM k) = true
      · obtain ⟨d, h1, h2, h3, h4, h5, h6⟩ :=
          ih ((s.log (.opt_next (OPT_PROV_ENUM k))).log (.opt_provider (OPT_PROV_ENUM k) true))
        refine ⟨[.opt_next (OPT_PROV_ENUM k), .opt_provider (OPT_PROV_ENUM k) true] ++ d, ?_⟩
        simp only [optLoop]
        simp [State.log, State.set, Event.isOptionPhase, Event.isFailure, hc] at h1 h3 h4 h5 h6 ⊢
        exact ⟨h1, h2, h3, h4, h5, h6⟩
      · refine ⟨[.opt_next (OPT_PROV_ENUM k), .opt_provider (OPT_PROV_ENUM k) false], ?_⟩
        simp only [optLoop]
        simp [State.log, State.set, Event.isOptionPhase, Event.isFailure, hc]
    case OPT_CIPHER =>
      cases hc : w.opt_cipher arg with
      | none =>
        refine ⟨[.opt_next OPT_CIPHER, .opt_cipher arg false], ?_⟩
        simp only [optLoop]
        simp [State.log, State.set, Event.isOptionPhase, Event.isFailure, hc]
      | some c =>
        obtain ⟨d, h1, h2, h3, h4, h5, h6⟩ :=
          ih (((s.log (.opt_next OPT_CIPHER)).log (.opt_cipher arg true)).set
            fun l => { l with enc := some c })
        refine ⟨[.opt_next OPT_CIPHER, .opt_cipher arg true] ++ d, ?_⟩
        simp only [optLoop]
        simp [State.log, State.set, Event.isOptionPhase, Event.isFailure, hc] at h1 h3 h4 h5 h6 ⊢
        exact ⟨h1, h2, h3, h4, h5, h6⟩
    case OPT_PRIMES =>
      cases hc : w.opt_int arg with
      | none =>
        refine ⟨[.opt_next OPT_PRIMES, .opt_int arg .primes none], ?_⟩
        simp only [optLoop]
        simp [State.log, State.set, Event.isOptionPhase, Event.isFailure, hc]
      | some c =>
        obtain ⟨d, h1, h2, h3, h4, h5, h6⟩ :=
          ih (((s.log (.opt_next OPT_PRIMES)).log (.opt_int arg .primes (some c))).set
            fun l => { l with primes := c })
        refine ⟨[.opt_next OPT_PRIMES, .opt_int arg .primes (some c)] ++ d, ?_⟩
        simp only [optLoop]
        simp [State.log, State.set, Event.isOptionPhase, Event.isFailure, hc] at h1 h3 h4 h5 h6 ⊢
        exact ⟨h1, h2, h3, h4, h5, h6⟩

theorem exponentAfter_cons (c : Nat) (o : OPTION_CHOICE) (fl : List OPTION_CHOICE) :
    exponentAfter c (o :: fl) =
      exponentAfter (if o = OPT_3 then 3 else if o = OPT_F4 then 65537 else c) fl := by
  unfold exponentAfter
  rw [List.filter_cons]
  by_cases h3 : o = OPT_3
  · subst h3
    simp only [isExponentFlag, decide_True, Bool.true_or, if_true, List.getLast?_cons]
    cases (List.filter isExponentFlag fl).getLast? with
    | none => rfl
    | some v => cases v <;> rfl
  by_cases h4 : o = OPT_F4
  · subst h4
    simp only [isExponentFlag, decide_True, Bool.or_true, if_true, List.getLast?_cons]
    cases (List.filter isExponentFlag fl).getLast? with
    | none => rfl
    | some v => cases v <;> rfl
  simp [isExponentFlag, h3, h4]

theorem mem_progressLog (v : Int) (events : List Int) (e : Event) :
    e ∈ progressLog v events ↔
      v ≠ 0 ∧ ∃ p ∈ events, e = .BIO_flush ∨
        e = .BIO_write [if p = 3 then '\n' else if p = 2 then '*' else if p = 1 then '+'
          else if p = 0 then '.' else '*'] := by
  induction events with
  | nil => simp [progressLog, emitProgress]
  | cons p ps ih =>
    have h : progressLog v (p :: ps) = (genrsa_cb v errSink [] p).1 ++ progressLog v ps := by
      have := emitProgress_errSink v ps (genrsa_cb v errSink [] p).1
      simpa [progressLog, emitProgress] using this
    rw [h, List.mem_append, ih]
    by_cases hv : v = 0
    · simp [genrsa_cb, hv]
    · rw [genrsa_cb_verbose v hv]
      simp only [errSink, List.nil_append, List.cons_append, List.mem_cons, List.mem_singleton,
        List.not_mem_nil, or_false]
      constructor
      · rintro ((h1 | h1) | ⟨_, q, hq, h1⟩)
        · exact ⟨hv, p, Or.inl rfl, Or.inr h1⟩
        · exact ⟨hv, p, Or.inl rfl, Or.inl h1⟩
        · exact ⟨hv, q, Or.inr hq, h1⟩
      · rintro ⟨_, q, hq | hq, h1⟩
        · subst hq
          rcases h1 with h1 | h1
          · exact Or.inl (Or.inr h1)
          · exact Or.inl (Or.inl h1)
        · exact Or.inr ⟨hv, q, hq, h1⟩

/-- Every way `generate` can run: where it stops, under which collaborator
results, with which log and which locals.  `k` is what `EVP_PKEY_keygen` left
in `pkey`. -/
theorem generate_paths (w : World) (s : State) :
    ∃ (pass : Option String) (h : BIO) (k : Option EVP_PKEY) (e : Nat) (d : List Event)
      (l1 : Locals),
      generate w s = ⟨l1, s.verbose, s.trace ++ d⟩ ∧
      ((w.app_passwd s.l.passoutarg = none ∧
          d = [.app_passwd s.l.passoutarg none, .BIO_printf "Error getting password\n" []] ∧
          l1.ret = s.l.ret ∧ l1.out = s.l.out ∧ l1.passout = s.l.passout) ∨
        (w.app_passwd s.l.passoutarg = some pass ∧ w.bio_open_owner s.l.outfile 1 = none ∧
          d = [.app_passwd s.l.passoutarg (some pass), .bio_open_owner s.l.outfile 1 false] ∧
          l1.ret = s.l.ret ∧ l1.out = s.l.out ∧ l1.passout = pass) ∨
        ((w.app_passwd s.l.passoutarg = some pass ∧ w.bio_open_owner s.l.outfile 1 = some h) ∧
          l1.ret = s.l.ret ∧ l1.out = some h ∧ l1.passout = pass ∧ l1.eng = s.l.eng ∧
          ((w.init_gen_str s.l.eng = false ∧
              d = openedLog s.l pass ++ [.init_gen_str s.l.eng false]) ∨
            (w.init_gen_str s.l.eng = true ∧
              w.EVP_PKEY_CTX_set_rsa_keygen_bits s.l.num ≤ 0 ∧
              d = bitsLog w s.l pass ++ [.BIO_printf "Error setting RSA length\n" []]) ∨
            (w.init_gen_str s.l.eng = true ∧
              0 < w.EVP_PKEY_CTX_set_rsa_keygen_bits s.l.num ∧
              w.BN_set_word s.l.f4 = false ∧
              d = bitsLog w s.l pass ++
                [.BN_set_word s.l.f4 false,
                  .BIO_printf "Error allocating RSA public exponent\n" []]) ∨
            (w.init_gen_str s.l.eng = true ∧
              0 < w.EVP_PKEY_CTX_set_rsa_keygen_bits s.l.num ∧
              w.BN_set_word s.l.f4 = true ∧
              w.EVP_PKEY_CTX_set_rsa_keygen_pubexp s.l.f4 ≤ 0 ∧
              d = pubexpLog w s.l pass ++
                [.BIO_printf "Error setting RSA public exponent\n" []]) ∨
            (w.init_gen_str s.l.eng = true ∧
              0 < w.EVP_PKEY_CTX_set_rsa_keygen_bits s.l.num ∧
              w.BN_set_word s.l.f4 = true ∧
              0 < w.EVP_PKEY_CTX_set_rsa_keygen_pubexp s.l.f4 ∧
              w.EVP_PKEY_CTX_set_rsa_keygen_primes s.l.primes ≤ 0 ∧
              d = primesLog w s.l pass ++
                [.BIO_printf "Error setting number of primes\n" []]) ∨
            (w.init_gen_str s.l.eng = true ∧
              0 < w.EVP_PKEY_CTX_set_rsa_keygen_bits s.l.num ∧
              w.BN_set_word s.l.f4 = true ∧
              0 < w.EVP_PKEY_CTX_set_rsa_keygen_pubexp s.l.f4 ∧
              0 < w.EVP_PKEY_CTX_set_rsa_keygen_primes s.l.primes ∧
              (w.EVP_PKEY_keygen s.l.num s.l.f4 s.l.primes).2.1 = 0 ∧
              d = keygenLog w s.l s.verbose pass ++
                [.BIO_printf "Error generating RSA key\n" []]))) ∨
        ((w.app_passwd s.l.passoutarg = some pass ∧ w.bio_open_owner s.l.outfile 1 = some h ∧
            w.init_gen_str s.l.eng = true ∧
            0 < w.EVP_PKEY_CTX_set_rsa_keygen_bits s.l.num ∧
            w.BN_set_word s.l.f4 = true ∧
            0 < w.EVP_PKEY_CTX_set_rsa_keygen_pubexp s.l.f4 ∧
            0 < w.EVP_PKEY_CTX_set_rsa_keygen_primes s.l.primes ∧
            ((w.EVP_PKEY_keygen s.l.num s.l.f4 s.l.primes).2.1 ≠ 0 ∧
              (w.EVP_PKEY_keygen s.l.num s.l.f4 s.l.primes).2.2 = k)) ∧
          l1.out = some h ∧ l1.passout = pass ∧ l1.eng = s.l.eng ∧
          ((s.verbose ≠ 0 ∧ w.EVP_PKEY_get0_RSA k = none ∧ l1.ret = s.l.ret ∧
              d = keygenLog w s.l s.verbose pass ++
                [.EVP_PKEY_get0_RSA false, .BIO_printf "Error cannot access RSA e\n" []]) ∨
            ((s.verbose = 0 ∨ w.EVP_PKEY_get0_RSA k = some e) ∧
              w.PEM_write_bio_PrivateKey h k s.l.enc pass = false ∧ l1.ret = s.l.ret ∧
              d = keygenLog w s.l s.verbose pass ++ echoLog w s.verbose e ++
                [.PEM_write_bio_PrivateKey k s.l.enc pass false]) ∨
            ((s.verbose = 0 ∨ w.EVP_PKEY_get0_RSA k = some e) ∧
              w.PEM_write_bio_PrivateKey h k s.l.enc pass = true ∧ l1.ret = 0 ∧
              d = keygenLog w s.l s.verbose pass ++ echoLog w s.verbose e ++
                [.PEM_write_bio_PrivateKey k s.l.enc pass true])))) := by
  cases hpw : w.app_passwd s.l.passoutarg with
  | none =>
    refine ⟨none, 0, none, 0, _, { s.l with priv := 1 }, ?_, Or.inl ⟨rfl, rfl, rfl, rfl, rfl⟩⟩
    simp [generate, hpw, State.log, State.set]
  | some pass =>
  cases hop : w.bio_open_owner s.l.outfile 1 with
  | none =>
    refine ⟨pass, 0, none, 0, _, { s.l with priv := 1, passout := pass }, ?_,
      Or.inr (Or.inl ⟨rfl, rfl, rfl, rfl, rfl, rfl⟩)⟩
    simp [generate, hpw, hop, State.log, State.set]
  | some h =>
  cases hin : w.init_gen_str s.l.eng with
  | false =>
    refine ⟨pass, h, none, 0, _, { s.l with priv := 1, passout := pass, out := some h }, ?_,
      Or.inr (Or.inr (Or.inl ⟨⟨rfl, rfl⟩, rfl, rfl, rfl, rfl,
        Or.inl ⟨rfl, rfl⟩⟩))⟩
    simp [generate, configureAndGenerate, echoAndWrite, writeKey, State.log, State.set, State.logs,
      emitProgress_errSink, openedLog, bitsLog, pubexpLog, primesLog, keygenLog, echoLog,
      hpw, hop, hin]
  | true =>
  by_cases hb : w.EVP_PKEY_CTX_set_rsa_keygen_bits s.l.num ≤ 0
  ·
    refine ⟨pass, h, none, 0, _, { s.l with priv := 1, passout := pass, out := some h }, ?_,
      Or.inr (Or.inr (Or.inl ⟨⟨rfl, rfl⟩, rfl, rfl, rfl, rfl,
        Or.inr (Or.inl ⟨rfl, hb, rfl⟩)⟩))⟩
    simp [generate, configureAndGenerate, echoAndWrite, writeKey, State.log, State.set, State.logs,
      emitProgress_errSink, openedLog, bitsLog, pubexpLog, primesLog, keygenLog, echoLog,
      hpw, hop, hin, hb]
  cases hbn : w.BN_set_word s.l.f4 with
  | false =>
    refine ⟨pass, h, none, 0, _, { s.l with priv := 1, passout := pass, out := some h }, ?_,
      Or.inr (Or.inr (Or.inl ⟨⟨rfl, rfl⟩, rfl, rfl, rfl, rfl,
        Or.inr (Or.inr (Or.inl ⟨rfl, not_le.mp hb, rfl, rfl⟩))⟩))⟩
    simp [generate, configureAndGenerate, echoAndWrite, writeKey, State.log, State.set, State.logs,
      emitProgress_errSink, openedLog, bitsLog, pubexpLog, primesLog, keygenLog, echoLog,
      hpw, hop, hin, hb, hbn]
  | true =>
  by_cases he : w.EVP_PKEY_CTX_set_rsa_keygen_pubexp s.l.f4 ≤ 0
  ·
    refine ⟨pass, h, none, 0, _, { s.l with priv := 1, passout := pass, out := some h }, ?_,
      Or.inr (Or.inr (Or.inl ⟨⟨rfl, rfl⟩, rfl, rfl, rfl, rfl,
        Or.inr (Or.inr (Or.inr (Or.inl ⟨rfl, not_le.mp hb, rfl, he, rfl⟩)))⟩))⟩
    simp [generate, configureAndGenerate, echoAndWrite, writeKey, State.log, State.set, State.logs,
      emitProgress_errSink, openedLog, bitsLog, pubexpLog, primesLog, keygenLog, echoLog,
      hpw, hop, hin, hb, hbn, he]
  by_cases hp : w.EVP_PKEY_CTX_set_rsa_keygen_primes s.l.primes ≤ 0
  ·
    refine ⟨pass, h, none, 0, _, { s.l with priv := 1, passout := pass, out := some h }, ?_,
      Or.inr (Or.inr (Or.inl ⟨⟨rfl, rfl⟩, rfl, rfl, rfl, rfl,
        Or.inr (Or.inr (Or.inr (Or.inr (Or.inl ⟨rfl, not_le.mp hb, rfl, not_le.mp he, hp, rfl⟩))))⟩))⟩
    simp [generate, configureAndGenerate, echoAndWrite, writeKey, State.log, State.set, State.logs,
      emitProgress_errSink, openedLog, bitsLog, pubexpLog, primesLog, keygenLog, echoLog,
      hpw, hop, hin, hb, hbn, he, hp]
  by_cases hk : (w.EVP_PKEY_keygen s.l.num s.l.f4 s.l.primes).2.1 = 0
  ·
    refine ⟨pass, h, none, 0, _,
      { s.l with priv := 1, passout := pass, out := some h,
                 pkey := (w.EVP_PKEY_keygen s.l.num s.l.f4 s.l.primes).2.2 }, ?_,
      Or.inr (Or.inr (Or.inl ⟨⟨rfl, rfl⟩, rfl, rfl, rfl, rfl,
        Or.inr (Or.inr (Or.inr (Or.inr (Or.inr (⟨rfl, not_le.mp hb, rfl, not_le.mp he, not_le.mp hp, hk, rfl⟩)))))⟩))⟩
    simp [generate, configureAndGenerate, echoAndWrite, writeKey, State.log, State.set, State.logs,
      emitProgress_errSink, openedLog, bitsLog, pubexpLog, primesLog, keygenLog, echoLog,
      hpw, hop, hin, hb, hbn, he, hp, hk]
  by_cases hv : s.verbose = 0
  · cases hw : w.PEM_write_bio_PrivateKey h (w.EVP_PKEY_keygen s.l.num s.l.f4 s.l.primes).2.2
        s.l.enc pass with
    | false =>
      refine ⟨pass, h, (w.EVP_PKEY_keygen s.l.num s.l.f4 s.l.primes).2.2, 0, _,
        { s.l with priv := 1, passout := pass, out := some h,
                   pkey := (w.EVP_PKEY_keygen s.l.num s.l.f4 s.l.primes).2.2 }, ?_,
        Or.inr (Or.inr (Or.inr ⟨⟨rfl, rfl, rfl, not_le.mp hb, rfl, not_le.mp he, not_le.mp hp, hk, rfl⟩,
          rfl, rfl, rfl, Or.inr (Or.inl ⟨Or.inl hv, hw, rfl, rfl⟩)⟩))⟩
      simp [generate, configureAndGenerate, echoAndWrite, writeKey, State.log, State.set, State.logs,
        emitProgress_errSink, openedLog, bitsLog, pubexpLog, primesLog, keygenLog, echoLog,
        hpw, hop, hin, hb, hbn, he, hp, hk, hv, hw]
    | true =>
      refine ⟨pass, h, (w.EVP_PKEY_keygen s.l.num s.l.f4 s.l.primes).2.2, 0, _,
        { s.l with priv := 1, passout := pass, out := some h,
                   pkey := (w.EVP_PKEY_keygen s.l.num s.l.f4 s.l.primes).2.2, ret := 0 }, ?_,
        Or.inr (Or.inr (Or.inr ⟨⟨rfl, rfl, rfl, not_le.mp hb, rfl, not_le.mp he, not_le.mp hp, hk, rfl⟩,
          rfl, rfl, rfl, Or.inr (Or.inr ⟨Or.inl hv, hw, rfl, rfl⟩)⟩))⟩
      simp [generate, configureAndGenerate, echoAndWrite, writeKey, State.log, State.set, State.logs,
        emitProgress_errSink, openedLog, bitsLog, pubexpLog, primesLog, keygenLog, echoLog,
        hpw, hop, hin, hb, hbn, he, hp, hk, hv, hw]
  cases hg : w.EVP_PKEY_get0_RSA (w.EVP_PKEY_keygen s.l.num s.l.f4 s.l.primes).2.2 with
  | none =>
    refine ⟨pass, h, (w.EVP_PKEY_keygen s.l.num s.l.f4 s.l.primes).2.2, 0, _,
      { s.l with priv := 1, passout := pass, out := some h,
                 pkey := (w.EVP_PKEY_keygen s.l.num s.l.f4 s.l.primes).2.2 }, ?_,
      Or.inr (Or.inr (Or.inr ⟨⟨rfl, rfl, rfl, not_le.mp hb, rfl, not_le.mp he, not_le.mp hp, hk, rfl⟩,
        rfl, rfl, rfl, Or.inl ⟨hv, hg, rfl, rfl⟩⟩))⟩
    simp [generate, configureAndGenerate, echoAndWrite, writeKey, State.log, State.set, State.logs,
      emitProgress_errSink, openedLog, bitsLog, pubexpLog, primesLog, keygenLog, echoLog,
      hpw, hop, hin, hb, hbn, he, hp, hk, hv, hg]
  | some e =>
  cases hw : w.PEM_write_bio_PrivateKey h (w.EVP_PKEY_keygen s.l.num s.l.f4 s.l.primes).2.2
      s.l.enc pass with
  | false =>
    refine ⟨pass, h, (w.EVP_PKEY_keygen s.l.num s.l.f4 s.l.primes).2.2, e, _,
      { s.l with priv := 1, passout := pass, out := some h,
                 pkey := (w.EVP_PKEY_keygen s.l.num s.l.f4 s.l.primes).2.2 }, ?_,
      Or.inr (Or.inr (Or.inr ⟨⟨rfl, rfl, rfl, not_le.mp hb, rfl, not_le.mp he, not_le.mp hp, hk, rfl⟩,
        rfl, rfl, rfl, Or.inr (Or.inl ⟨Or.inr hg, hw, rfl, rfl⟩)⟩))⟩
    simp [generate, configureAndGenerate, echoAndWrite, writeKey, State.log, State.set, State.logs,
      emitProgress_errSink, openedLog, bitsLog, pubexpLog, primesLog, keygenLog, echoLog,
      hpw, hop, hin, hb, hbn, he, hp, hk, hv, hg, hw]
  | true =>
    refine ⟨pass, h, (w.EVP_PKEY_keygen s.l.num s.l.f4 s.l.primes).2.2, e, _,
      { s.l with priv := 1, passout := pass, out := some h,
                 pkey := (w.EVP_PKEY_keygen s.l.num s.l.f4 s.l.primes).2.2, ret := 0 }, ?_,
      Or.inr (Or.inr (Or.inr ⟨⟨rfl, rfl, rfl, not_le.mp hb, rfl, not_le.mp he, not_le.mp hp, hk, rfl⟩,
        rfl, rfl, rfl, Or.inr (Or.inr ⟨Or.inr hg, hw, rfl, rfl⟩)⟩))⟩
    simp [generate, configureAndGenerate, echoAndWrite, writeKey, State.log, State.set, State.logs,
      emitProgress_errSink, openedLog, bitsLog, pubexpLog, primesLog, keygenLog, echoLog,
      hpw, hop, hin, hb, hbn, he, hp, hk, hv, hg, hw]

/-- Every way the check of the positional arguments can go: it rejects them
and the run is at `end`, or it lets the run go on into `generate`. -/
theorem afterOptions_paths (w : World) (prog : String) (rest : List String) (s : State) :
    ((∃ a, rest = [a] ∧ w.opt_int a = none ∧
        afterOptions w prog rest s = s.log (.opt_int a .num none)) ∨
      (∃ a n, rest = [a] ∧ w.opt_int a = some n ∧ n ≤ 0 ∧
        afterOptions w prog rest s =
          ⟨{ s.l with num := n }, s.verbose, s.trace ++ [.opt_int a .num (some n)]⟩) ∨
      (2 ≤ rest.length ∧
        afterOptions w prog rest s =
          s.logs [.BIO_printf "Extra arguments given.\n" [],
            .BIO_printf "%s: Use -help for summary.\n" [.str prog]])) ∨
    ((rest = [] ∨ ∃ a n, rest = [a] ∧ w.opt_int a = some n ∧ 0 < n) ∧
      afterOptions w prog rest s =
        generate w ⟨{ s.l with num := numbitsValue w rest s.l.num }, s.verbose,
          s.trace ++ numbitsLog w rest⟩) := by
  match rest with
  | [] =>
    right
    refine ⟨Or.inl rfl, ?_⟩
    simp [afterOptions, numbitsValue, numbitsLog]
  | [a] =>
    cases hi : w.opt_int a with
    | none =>
      left; left
      exact ⟨a, rfl, hi, by simp [afterOptions, hi]⟩
    | some n =>
      by_cases hn : n ≤ 0
      · left; right; left
        exact ⟨a, n, rfl, hi, hn, by simp [afterOptions, hi, hn, State.log, State.set]⟩
      · right
        refine ⟨Or.inr ⟨a, n, rfl, hi, not_le.mp hn⟩, ?_⟩
        simp [afterOptions, hi, hn, State.log, State.set, State.logs, numbitsValue, numbitsLog]
  | a :: b :: cs =>
    left; right; right
    exact ⟨by simp, by simp [afterOptions, opthelp, State.log, State.logs]⟩

/-- The three ways `genrsa_main` gets to label `end`. -/
theorem genrsa_main_paths (w : World) (v : Int) (prog : String) (opts : List Opt)
    (rest : List String) :
    ((w.BN_new = false ∨ w.BN_GENCB_new = false) ∧
      genrsa_main w v prog opts rest =
        cleanup ⟨Locals.init, v, [.BN_GENCB_new w.BN_GENCB_new, .BN_new w.BN_new]⟩) ∨
    (∃ s1, (w.BN_new = true ∧ w.BN_GENCB_new = true) ∧
      optLoop w prog opts (loopEntry w v) = (false, s1) ∧
      genrsa_main w v prog opts rest = cleanup s1) ∨
    (∃ s1, (w.BN_new = true ∧ w.BN_GENCB_new = true) ∧
      optLoop w prog opts (loopEntry w v) = (true, s1) ∧
      genrsa_main w v prog opts rest = cleanup (afterOptions w prog rest s1)) := by
  unfold genrsa_main
  by_cases ha : (!w.BN_new || !w.BN_GENCB_new) = true
  · left
    refine ⟨?_, by simp only [ha, if_true]⟩
    simpa [Bool.or_eq_true] using ha
  · right
    have hb : w.BN_new = true ∧ w.BN_GENCB_new = true := by
      simpa [Bool.or_eq_true] using ha
    simp only [ha]
    have hs : State.log ⟨Locals.init, v, [.BN_GENCB_new w.BN_GENCB_new, .BN_new w.BN_new]⟩
        .opt_init = loopEntry w v := by
      simp [State.log, loopEntry]
    rw [hs]
    rcases hl : optLoop w prog opts (loopEntry w v) with ⟨b, s1⟩
    cases b
    · left; exact ⟨s1, hb, rfl, rfl⟩
    · right; exact ⟨s1, hb, rfl, rfl⟩

theorem isSetup_of_isOptionPhase (e : Event) (h : e.isOptionPhase = true) :
    e.isSetup = true := by
  cases e <;> simp_all [Event.isSetup, Event.isOptionPhase]

theorem numbitsLog_setup (w : World) (rest : List String)
    (h : rest = [] ∨ ∃ a n, rest = [a] ∧ w.opt_int a = some n ∧ 0 < n) :
    (∀ e ∈ numbitsLog w rest, e.isSetup = true) ∧
      (numbitsLog w rest).any Event.isFailure = false ∧ Event.opt_help ∉ numbitsLog w rest := by
  rcases h with h | ⟨a, n, h, hi, hn⟩
  · subst h; simp [numbitsLog]
  · subst h
    by_cases hm : n > w.OPENSSL_RSA_MAX_MODULUS_BITS
    · simp [numbitsLog, hi, hm, Event.isSetup, Event.isFailure, sizeWarning, hn]
    · simp [numbitsLog, hi, hm, Event.isSetup, Event.isFailure, hn]

/-- A run whose allocations succeed, whose option loop runs to `OPT_EOF` and
whose positional arguments are accepted goes on into `generate`, from a state
`s` that holds no sink and no pass phrase and whose log is free of failures. -/
theorem run_reaches_generate (w : World) (v : Int) (prog : String) (opts : List Opt)
    (rest : List String) (s1 : State)
    (hb : w.BN_new = true ∧ w.BN_GENCB_new = true)
    (hl : optLoop w prog opts (loopEntry w v) = (true, s1))
    (hgo : rest = [] ∨ ∃ a n, rest = [a] ∧ w.opt_int a = some n ∧ 0 < n) :
    ∃ (d : List Event) (s : State),
      s1.trace = (loopEntry w v).trace ++ d ∧
      (∀ e ∈ d, e.isOptionPhase = true) ∧
      s = ⟨{ s1.l with num := numbitsValue w rest s1.l.num }, s1.verbose,
        s1.trace ++ numbitsLog w rest⟩ ∧
      genrsa_main w v prog opts rest = cleanup (generate w s) ∧
      (∀ e ∈ s.trace, e.isSetup = true) ∧
      s.l.ret = 1 ∧ s.l.out = none ∧ s.l.passout = none ∧
      Event.opt_next OPT_EOF ∈ s.trace ∧ s.trace.any Event.isFailure = false ∧
      Event.opt_help ∉ s.trace := by
  have hr : genrsa_main w v prog opts rest = cleanup (afterOptions w prog rest s1) := by
    rcases genrsa_main_paths w v prog opts rest with ⟨ha, -⟩ | ⟨s2, -, hl2, -⟩ | ⟨s2, -, hl2, hr⟩
    · rcases ha with ha | ha
      · rw [hb.1] at ha; cases ha
      · rw [hb.2] at ha; cases ha
    · rw [hl] at hl2; cases hl2
    · rw [hl] at hl2
      cases hl2
      exact hr
  have ha : afterOptions w prog rest s1 =
      generate w ⟨{ s1.l with num := numbitsValue w rest s1.l.num }, s1.verbose,
        s1.trace ++ numbitsLog w rest⟩ := by
    rcases afterOptions_paths w prog rest s1 with
      (⟨a, hrest, hi, -⟩ | ⟨a, n, hrest, hi, hn, -⟩ | ⟨hlen, -⟩) | ⟨-, ha⟩
    · rcases hgo with hgo | ⟨b, m, hgo, hj, hm⟩
      · rw [hgo] at hrest; cases hrest
      · rw [hgo] at hrest; cases hrest; rw [hi] at hj; cases hj
    · rcases hgo with hgo | ⟨b, m, hgo, hj, hm⟩
      · rw [hgo] at hrest; cases hrest
      · rw [hgo] at hrest; cases hrest; rw [hi] at hj; cases hj; omega
    · rcases hgo with hgo | ⟨b, m, hgo, hj, hm⟩
      · rw [hgo] at hlen; simp at hlen
      · rw [hgo] at hlen; simp at hlen
    · exact ha
  obtain ⟨d, h1, h2, h3, h4, h5, -⟩ := optLoop_inv w prog opts (loopEntry w v)
  rw [hl] at h1 h3 h4 h5
  obtain ⟨hret, heof, hf, hh⟩ := h5 rfl
  have hP : ∀ e ∈ (loopEntry w v).trace ++ d, e.isSetup = true := by
    intro e he
    rcases List.mem_append.mp he with he | he
    · simp [loopEntry] at he
      rcases he with he | he | he <;> subst he <;> rfl
    · exact isSetup_of_isOptionPhase e (h2 e he)
  have hret1 : s1.l.ret = 1 := by simpa [loopEntry, Locals.init] using hret
  have hout : s1.l.out = none := by simpa [loopEntry, Locals.init] using h3
  have hpass : s1.l.passout = none := by simpa [loopEntry, Locals.init] using h4
  have hf0 : ((loopEntry w v).trace ++ d).any Event.isFailure = false := by
    simp [List.any_append, hf, loopEntry, Event.isFailure, hb]
  have hh0 : Event.opt_help ∉ (loopEntry w v).trace ++ d := by
    simp [hh, loopEntry]
  simp only at h1
  obtain ⟨hn1, hn2, hn3⟩ := numbitsLog_setup w rest hgo
  refine ⟨d, _, h1, h2, rfl, by rw [hr, ha], ?_, hret1, hout, hpass, ?_, ?_, ?_⟩
  · intro x hx
    rcases List.mem_append.mp hx with hx | hx
    · rw [h1] at hx; exact hP x hx
    · exact hn1 x hx
  · show Event.opt_next OPT_EOF ∈ s1.trace ++ numbitsLog w rest
    rw [h1]; simp [heof]
  · show (s1.trace ++ numbitsLog w rest).any Event.isFailure = false
    rw [h1, List.any_append, hf0, hn2]; rfl
  · show Event.opt_help ∉ s1.trace ++ numbitsLog w rest
    rw [h1]
    intro hx
    rcases List.mem_append.mp hx with hx | hx
    · exact hh0 hx
    · exact hn3 hx

/-- The shape of every run.  Either it never enters `generate`: the log is a
setup part `P` followed by the clean-up, no sink and no pass phrase are held,
and it failed (`ret` 1) or stopped at `-help` (`ret` 0).  Or the option loop
ran to `OPT_EOF`, the positional arguments were accepted, and `generate` ran
from the state `s`. -/
theorem run_shape (w : World) (v : Int) (prog : String) (opts : List Opt) (rest : List String) :
    (∃ (P : List Event) (l : Locals) (vb : Int),
      genrsa_main w v prog opts rest = cleanup ⟨l, vb, P⟩ ∧
      (∀ e ∈ P, e.isSetup = true) ∧ l.out = none ∧ l.passout = none ∧
      ((l.ret = 1 ∧ P.any Event.isFailure = true ∧ Event.opt_help ∉ P) ∨
        (l.ret = 0 ∧ P.any Event.isFailure = false ∧ Event.opt_help ∈ P ∧
          (∀ a r, Event.opt_int a .num r ∉ P)))) ∨
    (∃ (s1 : State) (d : List Event) (s : State),
      optLoop w prog opts (loopEntry w v) = (true, s1) ∧
      s1.trace = (loopEntry w v).trace ++ d ∧
      (∀ e ∈ d, e.isOptionPhase = true) ∧
      (rest = [] ∨ ∃ a n, rest = [a] ∧ w.opt_int a = some n ∧ 0 < n) ∧
      s = ⟨{ s1.l with num := numbitsValue w rest s1.l.num }, s1.verbose,
        s1.trace ++ numbitsLog w rest⟩ ∧
      genrsa_main w v prog opts rest = cleanup (generate w s) ∧
      (∀ e ∈ s.trace, e.isSetup = true) ∧
      s.l.ret = 1 ∧ s.l.out = none ∧ s.l.passout = none ∧
      Event.opt_next OPT_EOF ∈ s.trace ∧ s.trace.any Event.isFailure = false ∧
      Event.opt_help ∉ s.trace) := by
  rcases genrsa_main_paths w v prog opts rest with ⟨ha, hr⟩ | ⟨s1, hb, hl, hr⟩ | ⟨s1, hb, hl, hr⟩
  · refine Or.inl ⟨_, _, _, hr, ?_, rfl, rfl, Or.inl ⟨rfl, ?_, ?_⟩⟩
    · simp [Event.isSetup]
    · rcases ha with ha | ha <;> simp [Event.isFailure, ha]
    · simp
  · obtain ⟨d, h1, h2, h3, h4, -, h6⟩ := optLoop_inv w prog opts (loopEntry w v)
    rw [hl] at h1 h3 h4 h6
    have hs1 : s1 = ⟨s1.l, s1.verbose, (loopEntry w v).trace ++ d⟩ := by
      rw [← h1]
    have hP : ∀ e ∈ (loopEntry w v).trace ++ d, e.isSetup = true := by
      intro e he
      rcases List.mem_append.mp he with he | he
      · simp [loopEntry] at he
        rcases he with he | he | he <;> subst he <;> rfl
      · exact isSetup_of_isOptionPhase e (h2 e he)
    have hout : s1.l.out = none := by simpa [loopEntry, Locals.init] using h3
    have hpass : s1.l.passout = none := by simpa [loopEntry, Locals.init] using h4
    rcases h6 rfl with ⟨hret, hf, hh⟩ | ⟨hret, hh, hf⟩
    · refine Or.inl ⟨_, s1.l, s1.verbose, by rw [hr, ← hs1], hP, hout, hpass,
        Or.inl ⟨?_, ?_, ?_⟩⟩
      · simpa [loopEntry, Locals.init] using hret
      · simp [List.any_append, hf]
      · simpa [loopEntry] using hh
    · refine Or.inl ⟨_, s1.l, s1.verbose, by rw [hr, ← hs1], hP, hout, hpass,
        Or.inr ⟨hret, ?_, ?_, ?_⟩⟩
      · simp [List.any_append, hf, loopEntry, Event.isFailure, hb]
      · simp [hh]
      · intro a r he
        rcases List.mem_append.mp he with he | he
        · simp [loopEntry] at he
        · simpa [Event.isOptionPhase] using h2 _ he
  · obtain ⟨d, h1, h2, h3, h4, h5, -⟩ := optLoop_inv w prog opts (loopEntry w v)
    rw [hl] at h1 h3 h4 h5
    obtain ⟨hret, heof, hf, hh⟩ := h5 rfl
    have hP : ∀ e ∈ (loopEntry w v).trace ++ d, e.isSetup = true := by
      intro e he
      rcases List.mem_append.mp he with he | he
      · simp [loopEntry] at he
        rcases he with he | he | he <;> subst he <;> rfl
      · exact isSetup_of_isOptionPhase e (h2 e he)
    have hret1 : s1.l.ret = 1 := by simpa [loopEntry, Locals.init] using hret
    have hout : s1.l.out = none := by simpa [loopEntry, Locals.init] using h3
    have hpass : s1.l.passout = none := by simpa [loopEntry, Locals.init] using h4
    have hf0 : ((loopEntry w v).trace ++ d).any Event.isFailure = false := by
      simp [List.any_append, hf, loopEntry, Event.isFailure, hb]
    have hh0 : Event.opt_help ∉ (loopEntry w v).trace ++ d := by
      simp [hh, loopEntry]
    simp only at h1
    rcases afterOptions_paths w prog rest s1 with
      (⟨a, hrest, hi, ha⟩ | ⟨a, n, hrest, hi, hn, ha⟩ | ⟨hlen, ha⟩) | ⟨hgo, ha⟩
    · refine Or.inl ⟨s1.trace ++ [.opt_int a .num none], s1.l, s1.verbose, ?_, ?_, hout, hpass,
        Or.inl ⟨hret1, ?_, ?_⟩⟩
      · rw [hr, ha]; simp [State.log]
      · intro e he
        rw [h1] at he
        rcases List.mem_append.mp he with he | he
        · exact hP e he
        · simp at he; subst he; rfl
      · simp [List.any_append, Event.isFailure]
      · rw [h1]; simpa using hh0
    · refine Or.inl ⟨s1.trace ++ [.opt_int a .num (some n)], { s1.l with num := n }, s1.verbose,
        ?_, ?_, hout, hpass, Or.inl ⟨hret1, ?_, ?_⟩⟩
      · rw [hr, ha]
      · intro e he
        rw [h1] at he
        rcases List.mem_append.mp he with he | he
        · exact hP e he
        · simp at he; subst he; rfl
      · simp [List.any_append, Event.isFailure, hn]
      · rw [h1]; simpa using hh0
    · refine Or.inl ⟨s1.trace ++ [.BIO_printf "Extra arguments given.\n" [],
          .BIO_printf "%s: Use -help for summary.\n" [.str prog]], s1.l, s1.verbose,
        ?_, ?_, hout, hpass, Or.inl ⟨hret1, ?_, ?_⟩⟩
      · rw [hr, ha]; simp [State.logs]
      · intro e he
        rw [h1] at he
        rcases List.mem_append.mp he with he | he
        · exact hP e he
        · simp at he; rcases he with he | he <;> subst he <;> rfl
      · simp [List.any_append, Event.isFailure]
      · rw [h1]; simpa using hh0
    · obtain ⟨d2, s, g1, g2, g3, g4, g5, g6, g7, g8, g9, g10, g11⟩ :=
        run_reaches_generate w v prog opts rest s1 hb hl hgo
      exact Or.inr ⟨s1, d2, s, hl, g1, g2, hgo, g3, g4, g5, g6, g7, g8, g9, g10, g11⟩

/-! ## Ordering lemmas -/

theorem cleanupLog_isCleanup (l : Locals) : ∀ e ∈ cleanupLog l, e.isCleanup = true := by
  intro e he
  unfold cleanupLog at he
  rw [List.mem_append] at he
  rcases he with he | he
  · simp at he
    rcases he with he | he | he | he | he | he | he | he <;> subst he <;> rfl
  · split_ifs at he
    · simp at he; subst he; rfl
    · simp at he

theorem noneBefore_of_clean (q p : Event → Bool) :
    ∀ A : List Event, (∀ e ∈ A, q e = false) → noneBefore q p A = true := by
  intro A
  induction A with
  | nil => intro _; rfl
  | cons a A ih =>
    intro h
    simp [noneBefore, h a (List.mem_cons_self a A), ih fun e he => h e (List.mem_cons_of_mem a he)]

theorem noneBefore_append_right (q p : Event → Bool) (B : List Event)
    (hB : ∀ e ∈ B, q e = false) :
    ∀ A : List Event, noneBefore q p (A ++ B) = noneBefore q p A := by
  intro A
  induction A with
  | nil => simpa [noneBefore] using noneBefore_of_clean q p B hB
  | cons a A ih => simp [noneBefore, ih]

theorem noneBefore_append_left (q p : Event → Bool) (B : List Event) :
    ∀ A : List Event, (∀ e ∈ A, q e = false ∧ p e = false) →
      noneBefore q p (A ++ B) = noneBefore q p B := by
  intro A
  induction A with
  | nil => intro _; rfl
  | cons a A ih =>
    intro h
    have ha := h a (List.mem_cons_self a A)
    simp [noneBefore, ha.1, ha.2, ih fun e he => h e (List.mem_cons_of_mem a he)]

/-! ## Membership in the pieces of the generation log -/

theorem mem_ite_singleton (c : Prop) [Decidable c] (a x : Event) :
    (x ∈ if c then [a] else []) ↔ c ∧ x = a := by
  by_cases hc : c <;> simp [hc]

theorem mem_echoLog (w : World) (v : Int) (e : Nat) (x : Event) :
    x ∈ echoLog w v e ↔
      v ≠ 0 ∧ (x = .EVP_PKEY_get0_RSA true ∨ x = .BN_bn2hex (w.BN_bn2hex e) ∨
        x = .BN_bn2dec (w.BN_bn2dec e) ∨
        (∃ hexe dece, w.BN_bn2hex e = some hexe ∧ w.BN_bn2dec e = some dece ∧
          x = .BIO_printf "e is %s (0x%s)\n" [.str dece, .str hexe]) ∨
        x = .OPENSSL_free .hexe (w.BN_bn2hex e) ∨ x = .OPENSSL_free .dece (w.BN_bn2dec e)) := by
  unfold echoLog
  by_cases hv : v = 0
  · simp [hv]
  · cases hh : w.BN_bn2hex e <;> cases hd : w.BN_bn2dec e <;> simp [hv]

theorem any_ite_singleton (p : Prop) [Decidable p] (a : Event) (c : Event → Bool) :
    (if p then [a] else []).any c = (decide p && c a) := by
  by_cases hp : p <;> simp [hp]

theorem progressLog_any (v : Int) (es : List Int) (c : Event → Bool)
    (h1 : c .BIO_flush = false) (h2 : ∀ cs, c (.BIO_write cs) = false) :
    (progressLog v es).any c = false := by
  rw [List.any_eq_false]
  intro x hx
  rw [mem_progressLog] at hx
  obtain ⟨-, p, -, hx | hx⟩ := hx <;> subst hx <;> simp [h1, h2]

theorem echoLog_any (w : World) (v : Int) (e : Nat) (c : Event → Bool)
    (h2 : ∀ a, c (.BIO_printf "e is %s (0x%s)\n" a) = false)
    (h3 : ∀ r, c (.BN_bn2hex r) = false) (h4 : ∀ r, c (.BN_bn2dec r) = false)
    (h5 : ∀ b x, c (.OPENSSL_free b x) = false) :
    (echoLog w v e).any c = (decide (v ≠ 0) && c (.EVP_PKEY_get0_RSA true)) := by
  unfold echoLog
  by_cases hv : v = 0
  · simp [hv]
  · cases hh : w.BN_bn2hex e <;> cases hd : w.BN_bn2dec e <;> simp [hv, h2, h3, h4, h5]

theorem cleanupLog_any (l : Locals) (c : Event → Bool) (h : ∀ x, x.isCleanup = true → c x = false) :
    (cleanupLog l).any c = false := by
  rw [List.any_eq_false]
  intro x hx
  simp [h x (cleanupLog_isCleanup l x hx)]

theorem mem_run (P g : List Event) (l : Locals) (hP : ∀ e ∈ P, e.isSetup = true) (x : Event)
    (hx : x ∈ P ++ g ++ cleanupLog l) (h1 : x.isSetup = false) (h2 : x.isCleanup = false) :
    x ∈ g := by
  rcases List.mem_append.mp hx with hx | hx
  · rcases List.mem_append.mp hx with hx | hx
    · rw [hP x hx] at h1; cases h1
    · exact hx
  · rw [cleanupLog_isCleanup l x hx] at h2; cases h2

theorem run_any (P g : List Event) (l : Locals) (hP : ∀ e ∈ P, e.isSetup = true)
    (c : Event → Bool) (h1 : ∀ x, x.isSetup = true → c x = false)
    (h2 : ∀ x, x.isCleanup = true → c x = false) :
    (P ++ g ++ cleanupLog l).any c = g.any c := by
  rw [List.any_append, List.any_append, cleanupLog_any l c h2]
  have : P.any c = false := by
    rw [List.any_eq_false]
    intro x hx
    simp [h1 x (hP x hx)]
  rw [this]
  simp

theorem setup_any (P : List Event) (hP : ∀ e ∈ P, e.isSetup = true) (c : Event → Bool)
    (h : ∀ x, x.isSetup = true → c x = false) : P.any c = false := by
  rw [List.any_eq_false]
  intro x hx
  simp [h x (hP x hx)]

theorem isKeyWritten_phase :
    (∀ x : Event, x.isSetup = true → x.isKeyWritten = false) ∧
      (∀ x : Event, x.isCleanup = true → x.isKeyWritten = false) := by
  constructor <;> intro x hx <;> cases x <;>
    first | rfl | simp [Event.isSetup, Event.isOptionPhase, Event.isCleanup] at hx

/-! ## The orchestration claims -/

/-- C7. In every run the log shows no key-engine call (context
initialisation, the three configuration calls, generation) until the output
sink has been opened successfully with `private = 1`; every attempt to open
the sink is made with `private = 1`; and when an attempt to open the sink
fails, the run returns 1 and its log holds no key-engine call at all. -/
theorem sink_opened_before_engine (w : World) (v : Int) (prog : String) (opts : List Opt)
    (rest : List String) :
    noneBefore Event.isEngineCall Event.isOwnerOnlyOpen
        (genrsa_main w v prog opts rest).trace = true ∧
      (∀ f p ok, Event.bio_open_owner f p ok ∈ (genrsa_main w v prog opts rest).trace → p = 1) ∧
      (∀ f p, Event.bio_open_owner f p false ∈ (genrsa_main w v prog opts rest).trace →
        (genrsa_main w v prog opts rest).ret = 1 ∧
          ∀ e ∈ (genrsa_main w v prog opts rest).trace, e.isEngineCall = false) := by
  have hS : ∀ e : Event, e.isSetup = true →
      e.isEngineCall = false ∧ e.isOwnerOnlyOpen = false ∧ e.isSinkOpen = false := by
    intro e h
    cases e <;> simp_all [Event.isSetup, Event.isOptionPhase, Event.isEngineCall,
      Event.isOwnerOnlyOpen, Event.isSinkOpen]
  have hC : ∀ e : Event, e.isCleanup = true →
      e.isEngineCall = false ∧ e.isOwnerOnlyOpen = false ∧ e.isSinkOpen = false := by
    intro e h
    cases e <;> simp_all [Event.isCleanup, Event.isEngineCall, Event.isOwnerOnlyOpen,
      Event.isSinkOpen]
  rcases run_shape w v prog opts rest with
    ⟨P, l, vb, hr, hP, hout, hpass, hk⟩ |
    ⟨s1, d, s, hl, h1, h2, hgo, hs, hr, hP, hret, hout, hpass, heof, hf, hh⟩
  · rw [hr]
    simp only [cleanup]
    have hall : ∀ e ∈ P ++ cleanupLog l, e.isEngineCall = false ∧ e.isSinkOpen = false := by
      intro e he
      rcases List.mem_append.mp he with he | he
      · exact ⟨(hS e (hP e he)).1, (hS e (hP e he)).2.2⟩
      · exact ⟨(hC e (cleanupLog_isCleanup l e he)).1, (hC e (cleanupLog_isCleanup l e he)).2.2⟩
    refine ⟨noneBefore_of_clean _ _ _ fun e he => (hall e he).1, ?_, ?_⟩
    · intro f p ok he
      simpa [Event.isSinkOpen] using (hall _ he).2
    · intro f p he
      simpa [Event.isSinkOpen] using (hall _ he).2
  · obtain ⟨pass, h, k, e, g, l1, hg, hpaths⟩ := generate_paths w s
    rw [hr, hg]
    simp only [cleanup]
    have hCl : ∀ x ∈ cleanupLog l1, x.isEngineCall = false ∧ x.isSinkOpen = false :=
      fun x hx => ⟨(hC x (cleanupLog_isCleanup l1 x hx)).1,
        (hC x (cleanupLog_isCleanup l1 x hx)).2.2⟩
    have hopen : ∀ f p ok, Event.bio_open_owner f p ok ∈ s.trace ++ g ++ cleanupLog l1 →
        Event.bio_open_owner f p ok ∈ g := by
      intro f p ok hx
      rcases List.mem_append.mp hx with hx | hx
      · rcases List.mem_append.mp hx with hx | hx
        · simpa [Event.isSinkOpen] using (hS _ (hP _ hx)).2.2
        · exact hx
      · simpa [Event.isSinkOpen] using (hCl _ hx).2
    have heng : (∀ x ∈ g, x.isEngineCall = false) →
        ∀ x ∈ s.trace ++ g ++ cleanupLog l1, x.isEngineCall = false := by
      intro hgc x hx
      rcases List.mem_append.mp hx with hx | hx
      · rcases List.mem_append.mp hx with hx | hx
        · exact (hS _ (hP _ hx)).1
        · exact hgc x hx
      · exact (hCl _ hx).1
    refine ⟨?_, ?_, ?_⟩
    · rw [noneBefore_append_right _ _ _ (fun x hx => (hCl x hx).1),
        noneBefore_append_left _ _ _ _ (fun x hx => ⟨(hS _ (hP _ hx)).1, (hS _ (hP _ hx)).2.1⟩)]
      rcases hpaths with ⟨-, hd, -, -, -⟩ | ⟨-, -, hd, -, -, -⟩ |
        ⟨-, -, -, -, -, ⟨-, hd⟩ | ⟨-, -, hd⟩ | ⟨-, -, -, hd⟩ | ⟨-, -, -, -, hd⟩ |
          ⟨-, -, -, -, -, hd⟩ | ⟨-, -, -, -, -, -, hd⟩⟩ |
        ⟨-, -, -, -, ⟨-, -, -, hd⟩ | ⟨-, -, -, hd⟩ | ⟨-, -, -, hd⟩⟩ <;>
      · subst hd
        simp [noneBefore, openedLog, bitsLog, pubexpLog, primesLog, keygenLog,
          Event.isEngineCall, Event.isOwnerOnlyOpen]
    · intro f p ok hx
      have hx := hopen f p ok hx
      rcases hpaths with ⟨-, hd, -, -, -⟩ | ⟨-, -, hd, -, -, -⟩ |
        ⟨-, -, -, -, -, ⟨-, hd⟩ | ⟨-, -, hd⟩ | ⟨-, -, -, hd⟩ | ⟨-, -, -, -, hd⟩ |
          ⟨-, -, -, -, -, hd⟩ | ⟨-, -, -, -, -, -, hd⟩⟩ |
        ⟨-, -, -, -, ⟨-, -, -, hd⟩ | ⟨-, -, -, hd⟩ | ⟨-, -, -, hd⟩⟩ <;>
      · subst hd
        simp [openedLog, bitsLog, pubexpLog, primesLog, keygenLog, mem_echoLog,
          mem_progressLog, mem_ite_singleton] at hx <;> exact hx.2.1
    · intro f p hx
      have hx := hopen f p false hx
      rcases hpaths with ⟨-, hd, -, -, -⟩ | ⟨-, -, hd, hl, -, -⟩ |
        ⟨-, -, -, -, -, ⟨-, hd⟩ | ⟨-, -, hd⟩ | ⟨-, -, -, hd⟩ | ⟨-, -, -, -, hd⟩ |
          ⟨-, -, -, -, -, hd⟩ | ⟨-, -, -, -, -, -, hd⟩⟩ |
        ⟨-, -, -, -, ⟨-, -, -, hd⟩ | ⟨-, -, -, hd⟩ | ⟨-, -, -, hd⟩⟩ <;>
      · subst hd
        first
          | (simp [openedLog, bitsLog, pubexpLog, primesLog, keygenLog, mem_echoLog,
              mem_progressLog, mem_ite_singleton] at hx; done)
          | (refine ⟨hl.trans hret, heng ?_⟩
             simp [Event.isEngineCall])

theorem sink_opened_before_engine_witness :
    (genrsa_main noSinkWorld 0 "genrsa" [] []).ret = 1 ∧
      ∀ e ∈ (genrsa_main noSinkWorld 0 "genrsa" [] []).trace, e.isEngineCall = false :=
  (sink_opened_before_engine noSinkWorld 0 "genrsa" [] []).2.2 none 1 (by decide)

theorem isSinkOpen_phase :
    (∀ x : Event, x.isSetup = true → x.isSinkOpen = false) ∧
      (∀ x : Event, x.isCleanup = true → x.isSinkOpen = false) := by
  constructor <;> intro x hx <;> cases x <;>
    first | rfl | simp [Event.isSetup, Event.isOptionPhase, Event.isCleanup] at hx

theorem isEngineCall_phase :
    (∀ x : Event, x.isSetup = true → x.isEngineCall = false) ∧
      (∀ x : Event, x.isCleanup = true → x.isEngineCall = false) := by
  constructor <;> intro x hx <;> cases x <;>
    first | rfl | simp [Event.isSetup, Event.isOptionPhase, Event.isCleanup] at hx

/-- The claim of C9 fails.  With `-passout` resolved to the buffer `secret`,
a successful run (exit 0) and a run that fails at the sink (exit 1) both
release that buffer through `OPENSSL_free` still holding `secret`; nothing
zeroes it first. -/
theorem passphrase_released_uncleared :
    (genrsa_main sampleWorld 0 "genrsa" [⟨OPT_PASSOUT, "pass:x"⟩] []).ret = 0 ∧
      Event.app_passwd (some "pass:x") (some (some "secret")) ∈
        (genrsa_main sampleWorld 0 "genrsa" [⟨OPT_PASSOUT, "pass:x"⟩] []).trace ∧
      Event.OPENSSL_free .passout (some "secret") ∈
        (genrsa_main sampleWorld 0 "genrsa" [⟨OPT_PASSOUT, "pass:x"⟩] []).trace ∧
      (genrsa_main noSinkWorld 0 "genrsa" [⟨OPT_PASSOUT, "pass:x"⟩] []).ret = 1 ∧
      Event.OPENSSL_free .passout (some "secret") ∈
        (genrsa_main noSinkWorld 0 "genrsa" [⟨OPT_PASSOUT, "pass:x"⟩] []).trace ∧
      isCleared (some "secret") = false := by
  decide

theorem cleanupLog_passout (l : Locals) :
    cleanupLog l =
      [.BN_free, .BN_GENCB_free, .EVP_PKEY_CTX_free, .EVP_PKEY_free, .BIO_free_all l.out,
        .release_engine l.eng] ++
      Event.OPENSSL_free .passout l.passout ::
        (.OPENSSL_free .ebuf none :: if l.ret ≠ 0 then [.ERR_print_errors] else []) := by
  simp [cleanupLog]

theorem mem_cleanupLog_passout (l : Locals) (q : Option String)
    (h : Event.OPENSSL_free .passout q ∈ cleanupLog l) : q = l.passout := by
  unfold cleanupLog at h
  by_cases hr : l.ret ≠ 0 <;> simpa [hr] using h

/-- C9, amended.  On every exit path taken after the pass phrase has been
resolved, failure and success alike, the resolved buffer is released through
`OPENSSL_free(passout)` after the resolution, and every release of that buffer
finds it holding the bytes it was resolved to: nothing zeroes it first. -/
theorem passphrase_released_unchanged (w : World) (v : Int) (prog : String) (opts : List Opt)
    (rest : List String) (arg : Option String) (p : Option String)
    (hres : Event.app_passwd arg (some p) ∈ (genrsa_main w v prog opts rest).trace) :
    (∃ pre post, (genrsa_main w v prog opts rest).trace =
          pre ++ Event.OPENSSL_free .passout p :: post ∧
        Event.app_passwd arg (some p) ∈ pre) ∧
      (∀ q, Event.OPENSSL_free .passout q ∈ (genrsa_main w v prog opts rest).trace → q = p) := by
  rcases run_shape w v prog opts rest with
    ⟨P, l, vb, hr, hP, hout, hpass, hk⟩ |
    ⟨s1, d, s, hl, h1, h2, hgo, hs, hr, hP, hret, hout, hpass, heof, hf, hh⟩
  · rw [hr] at hres
    simp only [cleanup] at hres
    rcases List.mem_append.mp hres with hx | hx
    · simpa [Event.isSetup, Event.isOptionPhase] using hP _ hx
    · simpa [Event.isCleanup] using cleanupLog_isCleanup l _ hx
  · obtain ⟨pass, h, k, e, g, l1, hg, hpaths⟩ := generate_paths w s
    rw [hr, hg] at hres ⊢
    simp only [cleanup] at hres ⊢
    have hres := mem_run s.trace g l1 hP _ hres rfl rfl
    have hpp : l1.passout = p ∧ ∀ q, Event.OPENSSL_free .passout q ∉ g := by
      rcases hpaths with
        ⟨c1, hd, hr1, ho1, hp1⟩ | ⟨c1, c2, hd, hr1, ho1, hp1⟩ |
        ⟨⟨c1, c2⟩, hr1, ho1, hp1, he1, ⟨c3, hd⟩ | ⟨c3, c4, hd⟩ | ⟨c3, c4, c5, hd⟩ |
          ⟨c3, c4, c5, c6, hd⟩ | ⟨c3, c4, c5, c6, c7, hd⟩ | ⟨c3, c4, c5, c6, c7, c8, hd⟩⟩ |
        ⟨⟨c1, c2, c3, c4, c5, c6, c7, c8⟩, ho1, hp1, he1, ⟨c9, c10, hr1, hd⟩ |
          ⟨c9, c10, hr1, hd⟩ | ⟨c9, c10, hr1, hd⟩⟩ <;>
      · subst hd
        first
          | (simp [openedLog, bitsLog, pubexpLog, primesLog, keygenLog, mem_echoLog,
              mem_progressLog, mem_ite_singleton] at hres
             done)
          | (simp [openedLog, bitsLog, pubexpLog, primesLog, keygenLog, mem_echoLog,
              mem_progressLog, mem_ite_singleton] at hres
             refine ⟨by simp [hp1, hres], ?_⟩
             intro q hq
             simp [openedLog, bitsLog, pubexpLog, primesLog, keygenLog, mem_echoLog,
               mem_progressLog, mem_ite_singleton] at hq)
    refine ⟨⟨s.trace ++ g ++ [.BN_free, .BN_GENCB_free, .EVP_PKEY_CTX_free, .EVP_PKEY_free,
        .BIO_free_all l1.out, .release_engine l1.eng],
        .OPENSSL_free .ebuf none :: (if l1.ret ≠ 0 then [.ERR_print_errors] else []),
        ?_, ?_⟩, ?_⟩
    · rw [cleanupLog_passout, hpp.1, ← List.append_assoc]
    · simp [hres]
    · intro q hq
      rcases List.mem_append.mp hq with hq | hq
      · rcases List.mem_append.mp hq with hq | hq
        · simpa [Event.isSetup, Event.isOptionPhase] using hP _ hq
        · exact absurd hq (hpp.2 q)
      · rw [mem_cleanupLog_passout l1 q hq]
        exact hpp.1

theorem passphrase_released_unchanged_witness :
    ∃ pre post,
      (genrsa_main sampleWorld 0 "genrsa"
          [⟨OPT_VERBOSE, ""⟩, ⟨OPT_PASSOUT, "pass:x"⟩] []).trace =
        pre ++ Event.OPENSSL_free .passout (some "secret") :: post ∧
      Event.app_passwd (some "pass:x") (some (some "secret")) ∈ pre :=
  (passphrase_released_unchanged sampleWorld 0 "genrsa"
    [⟨OPT_VERBOSE, ""⟩, ⟨OPT_PASSOUT, "pass:x"⟩] []
    (some "pass:x") (some "secret") (by decide)).1

theorem consumed_cons (o : OPTION_CHOICE) (arg : String) (xs : List Opt) :
    consumed (⟨o, arg⟩ :: xs) = if o = OPT_EOF then [] else o :: consumed xs := by
  by_cases h : o = OPT_EOF <;> simp [consumed, List.takeWhile, h]

theorem optLoop_f4 (w : World) (prog : String) :
    ∀ (opts : List Opt) (s s1 : State), optLoop w prog opts s = (true, s1) →
      s1.l.f4 = exponentAfter s.l.f4 (consumed opts) := by
  intro opts
  induction opts with
  | nil =>
    intro s s1 h
    simp [optLoop, State.log] at h
    subst h
    simp [consumed, exponentAfter]
  | cons x xs ih =>
    intro s s1 h
    obtain ⟨o, arg⟩ := x
    rw [consumed_cons]
    cases o
    case OPT_EOF =>
      simp [optLoop, State.log] at h
      subst h
      simp [exponentAfter]
    case OPT_ERR => simp [optLoop] at h
    case OPT_HELP => simp [optLoop] at h
    case OPT_R_ENUM k =>
      by_cases hc : w.opt_rand (OPT_R_ENUM k) = true
      · simp only [optLoop, hc, if_true] at h
        simpa [State.log, State.set, exponentAfter_cons] using ih _ _ h
      · simp [optLoop, hc] at h
    case OPT_PROV_ENUM k =>
      by_cases hc : w.opt_provider (OPT_PROV_ENUM k) = true
      · simp only [optLoop, hc, if_true] at h
        simpa [State.log, State.set, exponentAfter_cons] using ih _ _ h
      · simp [optLoop, hc] at h
    case OPT_CIPHER =>
      cases hc : w.opt_cipher arg with
      | none => simp [optLoop, hc] at h
      | some c =>
        simp only [optLoop, hc] at h
        simpa [State.log, State.set, exponentAfter_cons] using ih _ _ h
    case OPT_PRIMES =>
      cases hc : w.opt_int arg with
      | none => simp [optLoop, hc] at h
      | some c =>
        simp only [optLoop, hc] at h
        simpa [State.log, State.set, exponentAfter_cons] using ih _ _ h
    all_goals
      simp only [optLoop] at h
      simpa [State.log, State.set, exponentAfter_cons, RSA_3, RSA_F4] using ih _ _ h

theorem optLoop_accept (w : World) (prog : String) :
    ∀ (opts : List Opt) (s s2 : State),
      (optLoop w prog (opts.filter fun x => !isExponentFlag x.o) s).1 =
        (optLoop w prog opts s2).1 := by
  intro opts
  induction opts with
  | nil => intro s s2; simp [optLoop]
  | cons x xs ih =>
    intro s s2
    obtain ⟨o, arg⟩ := x
    cases o
    case OPT_3 => simpa [List.filter, isExponentFlag, optLoop] using ih _ _
    case OPT_F4 => simpa [List.filter, isExponentFlag, optLoop] using ih _ _
    case OPT_EOF => simp [List.filter, isExponentFlag, optLoop]
    case OPT_ERR => simp [List.filter, isExponentFlag, optLoop]
    case OPT_HELP => simp [List.filter, isExponentFlag, optLoop]
    case OPT_R_ENUM k =>
      by_cases hc : w.opt_rand (OPT_R_ENUM k) = true
      · simpa [List.filter, isExponentFlag, optLoop, hc] using ih _ _
      · simp [List.filter, isExponentFlag, optLoop, hc]
    case OPT_PROV_ENUM k =>
      by_cases hc : w.opt_provider (OPT_PROV_ENUM k) = true
      · simpa [List.filter, isExponentFlag, optLoop, hc] using ih _ _
      · simp [List.filter, isExponentFlag, optLoop, hc]
    case OPT_CIPHER =>
      cases hc : w.opt_cipher arg with
      | none => simp [List.filter, isExponentFlag, optLoop, hc]
      | some c => simpa [List.filter, isExponentFlag, optLoop, hc] using ih _ _
    case OPT_PRIMES =>
      cases hc : w.opt_int arg with
      | none => simp [List.filter, isExponentFlag, optLoop, hc]
      | some c => simpa [List.filter, isExponentFlag, optLoop, hc] using ih _ _
    all_goals simpa [List.filter, isExponentFlag, optLoop] using ih _ _

/-- C3. The exponent handed to `BN_set_word` and to
`EVP_PKEY_CTX_set_rsa_keygen_pubexp` in any run is the one selected by the
last exponent flag the option loop read: 3 after `-3`, 65537 after `-F4` or
`-f4` (both rows of the option table carry the code `OPT_F4`), and 65537 when
there is none; a run that writes the key has made the exponent call with that
value and a positive result.  The loop keeps the last assignment to `f4`, and
whether the loop accepts a stream does not depend on its exponent flags: they
never raise an error, in either order. -/
theorem exponent_last_flag_wins (w : World) (v : Int) (prog : String) (opts : List Opt)
    (rest : List String) :
    (∀ x ok, Event.BN_set_word x ok ∈ (genrsa_main w v prog opts rest).trace →
        x = selectedExponent (consumed opts)) ∧
      (∀ x r, Event.EVP_PKEY_CTX_set_rsa_keygen_pubexp x r ∈
          (genrsa_main w v prog opts rest).trace → x = selectedExponent (consumed opts)) ∧
      ((genrsa_main w v prog opts rest).trace.any Event.isKeyWritten = true →
        ∃ r, 0 < r ∧ Event.EVP_PKEY_CTX_set_rsa_keygen_pubexp (selectedExponent (consumed opts)) r ∈
          (genrsa_main w v prog opts rest).trace) ∧
      (∀ s s1, optLoop w prog opts s = (true, s1) →
        s1.l.f4 = exponentAfter s.l.f4 (consumed opts)) ∧
      (∀ s s2, (optLoop w prog (opts.filter fun x => !isExponentFlag x.o) s).1 =
        (optLoop w prog opts s2).1) ∧
      (selectedExponent [] = 65537 ∧ selectedExponent [OPT_3] = 3 ∧
        selectedExponent [OPT_F4] = 65537 ∧ selectedExponent [OPT_3, OPT_F4] = 65537 ∧
        selectedExponent [OPT_F4, OPT_3] = 3) ∧
      (∀ row ∈ genrsa_options,
        (row.name = "3" → row.retval = OPT_3) ∧
          (row.name = "F4" ∨ row.name = "f4" → row.retval = OPT_F4)) := by
  refine ⟨?_, ?_, ?_, optLoop_f4 w prog opts, optLoop_accept w prog opts, by decide, by decide⟩
  all_goals
    rcases run_shape w v prog opts rest with
      ⟨P, l, vb, hr, hP, hout, hpass, hk⟩ |
      ⟨s1, d, s, hl, h1, h2, hgo, hs, hr, hP, hret, hout, hpass, heof, hf, hh⟩
  · intro x ok hx
    rw [hr] at hx
    simp only [cleanup] at hx
    rcases List.mem_append.mp hx with hx | hx
    · simpa [Event.isSetup, Event.isOptionPhase] using hP _ hx
    · simpa [Event.isCleanup] using cleanupLog_isCleanup l _ hx
  · intro x ok hx
    have hf4 : s.l.f4 = selectedExponent (consumed opts) := by
      have := optLoop_f4 w prog opts _ _ hl
      rw [hs]
      simpa [loopEntry, Locals.init, RSA_F4, selectedExponent] using this
    obtain ⟨pass, h, k, e, g, l1, hg, hpaths⟩ := generate_paths w s
    rw [hr, hg] at hx
    simp only [cleanup] at hx
    have hx := mem_run s.trace g l1 hP _ hx rfl rfl
    rcases hpaths with
      ⟨c1, hd, hr1, ho1, hp1⟩ | ⟨c1, c2, hd, hr1, ho1, hp1⟩ |
      ⟨⟨c1, c2⟩, hr1, ho1, hp1, he1, ⟨c3, hd⟩ | ⟨c3, c4, hd⟩ | ⟨c3, c4, c5, hd⟩ |
        ⟨c3, c4, c5, c6, hd⟩ | ⟨c3, c4, c5, c6, c7, hd⟩ | ⟨c3, c4, c5, c6, c7, c8, hd⟩⟩ |
      ⟨⟨c1, c2, c3, c4, c5, c6, c7, c8⟩, ho1, hp1, he1, ⟨c9, c10, hr1, hd⟩ |
        ⟨c9, c10, hr1, hd⟩ | ⟨c9, c10, hr1, hd⟩⟩ <;>
    · subst hd
      simp [openedLog, bitsLog, pubexpLog, primesLog, keygenLog, mem_echoLog,
        mem_progressLog, mem_ite_singleton] at hx <;>
      · rw [← hf4]
        exact hx.1
  · intro x r hx
    rw [hr] at hx
    simp only [cleanup] at hx
    rcases List.mem_append.mp hx with hx | hx
    · simpa [Event.isSetup, Event.isOptionPhase] using hP _ hx
    · simpa [Event.isCleanup] using cleanupLog_isCleanup l _ hx
  · intro x r hx
    have hf4 : s.l.f4 = selectedExponent (consumed opts) := by
      have := optLoop_f4 w prog opts _ _ hl
      rw [hs]
      simpa [loopEntry, Locals.init, RSA_F4, selectedExponent] using this
    obtain ⟨pass, h, k, e, g, l1, hg, hpaths⟩ := generate_paths w s
    rw [hr, hg] at hx
    simp only [cleanup] at hx
    have hx := mem_run s.trace g l1 hP _ hx rfl rfl
    rcases hpaths with
      ⟨c1, hd, hr1, ho1, hp1⟩ | ⟨c1, c2, hd, hr1, ho1, hp1⟩ |
      ⟨⟨c1, c2⟩, hr1, ho1, hp1, he1, ⟨c3, hd⟩ | ⟨c3, c4, hd⟩ | ⟨c3, c4, c5, hd⟩ |
        ⟨c3, c4, c5, c6, hd⟩ | ⟨c3, c4, c5, c6, c7, hd⟩ | ⟨c3, c4, c5, c6, c7, c8, hd⟩⟩ |
      ⟨⟨c1, c2, c3, c4, c5, c6, c7, c8⟩, ho1, hp1, he1, ⟨c9, c10, hr1, hd⟩ |
        ⟨c9, c10, hr1, hd⟩ | ⟨c9, c10, hr1, hd⟩⟩ <;>
    · subst hd
      simp [openedLog, bitsLog, pubexpLog, primesLog, keygenLog, mem_echoLog,
        mem_progressLog, mem_ite_singleton] at hx <;>
      · rw [← hf4]
        exact hx.1
  · intro hx
    rw [hr] at hx
    simp only [cleanup] at hx
    rw [List.any_append, setup_any P hP _ isKeyWritten_phase.1,
      cleanupLog_any l _ isKeyWritten_phase.2] at hx
    cases hx
  · intro hx
    have hf4 : s.l.f4 = selectedExponent (consumed opts) := by
      have := optLoop_f4 w prog opts _ _ hl
      rw [hs]
      simpa [loopEntry, Locals.init, RSA_F4, selectedExponent] using this
    obtain ⟨pass, h, k, e, g, l1, hg, hpaths⟩ := generate_paths w s
    rw [hr, hg] at hx ⊢
    simp only [cleanup] at hx ⊢
    rw [run_any s.trace g l1 hP _ isKeyWritten_phase.1 isKeyWritten_phase.2] at hx
    rcases hpaths with
      ⟨c1, hd, hr1, ho1, hp1⟩ | ⟨c1, c2, hd, hr1, ho1, hp1⟩ |
      ⟨⟨c1, c2⟩, hr1, ho1, hp1, he1, ⟨c3, hd⟩ | ⟨c3, c4, hd⟩ | ⟨c3, c4, c5, hd⟩ |
        ⟨c3, c4, c5, c6, hd⟩ | ⟨c3, c4, c5, c6, c7, hd⟩ | ⟨c3, c4, c5, c6, c7, c8, hd⟩⟩ |
      ⟨⟨c1, c2, c3, c4, c5, c6, c7, c8⟩, ho1, hp1, he1, ⟨c9, c10, hr1, hd⟩ |
        ⟨c9, c10, hr1, hd⟩ | ⟨c9, c10, hr1, hd⟩⟩ <;>
    · subst hd
      first
        | (simp [openedLog, bitsLog, pubexpLog, primesLog, keygenLog, echoLog_any,
            progressLog_any, any_ite_singleton, Event.isKeyWritten] at hx
           done)
        | (refine ⟨_, c6, ?_⟩
           rw [← hf4]
           simp [openedLog, bitsLog, pubexpLog, primesLog, keygenLog])

theorem generate_no_parse (w : World) (s : State) (g : List Event) (l1 : Locals)
    (hg : generate w s = ⟨l1, s.verbose, s.trace ++ g⟩) (a : String) (dst : IntDest)
    (r : Option Int) : Event.opt_int a dst r ∉ g := by
  obtain ⟨pass, h, k, e, g2, l2, hg2, hpaths⟩ := generate_paths w s
  rw [hg] at hg2
  have hgg : g = g2 := by
    have := congrArg State.trace hg2
    simpa using this
  subst hgg
  intro hx
  rcases hpaths with
    ⟨c1, hd, hr1, ho1, hp1⟩ | ⟨c1, c2, hd, hr1, ho1, hp1⟩ |
      ⟨⟨c1, c2⟩, hr1, ho1, hp1, he1, ⟨c3, hd⟩ | ⟨c3, c4, hd⟩ | ⟨c3, c4, c5, hd⟩ |
        ⟨c3, c4, c5, c6, hd⟩ | ⟨c3, c4, c5, c6, c7, hd⟩ | ⟨c3, c4, c5, c6, c7, c8, hd⟩⟩ |
      ⟨⟨c1, c2, c3, c4, c5, c6, c7, c8⟩, ho1, hp1, he1, ⟨c9, c10, hr1, hd⟩ |
        ⟨c9, c10, hr1, hd⟩ | ⟨c9, c10, hr1, hd⟩⟩ <;>
  · subst hd
    simp [openedLog, bitsLog, pubexpLog, primesLog, keygenLog, mem_echoLog,
      mem_progressLog, mem_ite_singleton] at hx

/-- A logged parse of `numbits` comes from the single positional argument of a
run whose allocations succeeded and whose option loop ran to `OPT_EOF`. -/
theorem numbits_event_origin (w : World) (v : Int) (prog : String) (opts : List Opt)
    (rest : List String) (a : String) (r : Option Int)
    (h : Event.opt_int a .num r ∈ (genrsa_main w v prog opts rest).trace) :
    rest = [a] ∧ w.opt_int a = r ∧ (w.BN_new = true ∧ w.BN_GENCB_new = true) ∧
      ∃ s1, optLoop w prog opts (loopEntry w v) = (true, s1) := by
  have hcl : ∀ l, Event.opt_int a .num r ∉ cleanupLog l := by
    intro l hx
    simpa [Event.isCleanup] using cleanupLog_isCleanup l _ hx
  rcases genrsa_main_paths w v prog opts rest with ⟨ha, hr⟩ | ⟨s1, hb, hl, hr⟩ | ⟨s1, hb, hl, hr⟩
  · rw [hr] at h
    simp only [cleanup] at h
    rcases List.mem_append.mp h with hx | hx
    · simp at hx
    · exact absurd hx (hcl _)
  · obtain ⟨d, h1, h2, -⟩ := optLoop_inv w prog opts (loopEntry w v)
    rw [hl] at h1
    rw [hr] at h
    simp only [cleanup] at h h1
    rw [h1] at h
    rcases List.mem_append.mp h with hx | hx
    · rcases List.mem_append.mp hx with hx | hx
      · simp [loopEntry] at hx
      · simpa [Event.isOptionPhase] using h2 _ hx
    · exact absurd hx (hcl _)
  · obtain ⟨d, h1, h2, -⟩ := optLoop_inv w prog opts (loopEntry w v)
    rw [hl] at h1
    simp only at h1
    have hs1 : Event.opt_int a .num r ∉ s1.trace := by
      rw [h1]
      intro hx
      rcases List.mem_append.mp hx with hx | hx
      · simp [loopEntry] at hx
      · simpa [Event.isOptionPhase] using h2 _ hx
    rw [hr] at h
    simp only [cleanup] at h
    rcases afterOptions_paths w prog rest s1 with
      (⟨b, hrest, hi, ha⟩ | ⟨b, n, hrest, hi, hn, ha⟩ | ⟨hlen, ha⟩) | ⟨hgo, ha⟩
    · rw [ha] at h
      simp only [State.log] at h
      rcases List.mem_append.mp h with hx | hx
      · rcases List.mem_append.mp hx with hx | hx
        · exact absurd hx hs1
        · simp at hx
          obtain ⟨rfl, rfl⟩ := hx
          exact ⟨hrest, hi, hb, s1, hl⟩
      · exact absurd hx (hcl _)
    · rw [ha] at h
      simp only at h
      rcases List.mem_append.mp h with hx | hx
      · rcases List.mem_append.mp hx with hx | hx
        · exact absurd hx hs1
        · simp at hx
          obtain ⟨rfl, rfl⟩ := hx
          exact ⟨hrest, hi, hb, s1, hl⟩
      · exact absurd hx (hcl _)
    · rw [ha] at h
      simp only [State.logs] at h
      rcases List.mem_append.mp h with hx | hx
      · rcases List.mem_append.mp hx with hx | hx
        · exact absurd hx hs1
        · simp at hx
      · exact absurd hx (hcl _)
    · obtain ⟨pass, hh, k, e, g, l1, hg, -⟩ := generate_paths w
        ⟨{ s1.l with num := numbitsValue w rest s1.l.num }, s1.verbose,
          s1.trace ++ numbitsLog w rest⟩
      rw [ha, hg] at h
      simp only at h
      rcases List.mem_append.mp h with hx | hx
      · rcases List.mem_append.mp hx with hx | hx
        · rcases List.mem_append.mp hx with hx | hx
          · exact absurd hx hs1
          · rcases hgo with hgo | ⟨b, n, hgo, hi, hn⟩
            · subst hgo
              simp [numbitsLog] at hx
            · subst hgo
              simp [numbitsLog, hi, mem_ite_singleton] at hx
              obtain ⟨rfl, rfl⟩ := hx
              exact ⟨rfl, hi, hb, s1, hl⟩
        · exact absurd hx (generate_no_parse w _ g l1 hg a .num r)
      · exact absurd hx (hcl _)

/-- A run whose allocations succeed and whose option loop runs to `OPT_EOF`
parses its single positional argument. -/
theorem numbits_parsed (w : World) (v : Int) (prog : String) (opts : List Opt)
    (rest : List String) (a : String) (s1 : State)
    (hb : w.BN_new = true ∧ w.BN_GENCB_new = true)
    (hl : optLoop w prog opts (loopEntry w v) = (true, s1)) (hrest : rest = [a]) :
    Event.opt_int a .num (w.opt_int a) ∈ (genrsa_main w v prog opts rest).trace := by
  have hr : genrsa_main w v prog opts rest = cleanup (afterOptions w prog rest s1) := by
    rcases genrsa_main_paths w v prog opts rest with ⟨ha, -⟩ | ⟨s2, -, hl2, -⟩ | ⟨s2, -, hl2, hr⟩
    · rcases ha with ha | ha
      · rw [hb.1] at ha; cases ha
      · rw [hb.2] at ha; cases ha
    · rw [hl] at hl2; cases hl2
    · rw [hl] at hl2
      cases hl2
      exact hr
  rw [hr]
  subst hrest
  cases hi : w.opt_int a with
  | none => simp [cleanup, afterOptions, hi, State.log]
  | some n =>
    by_cases hn : n ≤ 0
    · simp [cleanup, afterOptions, hi, hn, State.log, State.set]
    · obtain ⟨pass, hh, k, e, g, l1, hg, -⟩ := generate_paths w
        (State.logs (State.set (State.log s1 (.opt_int a .num (some n)))
          fun l => { l with num := n })
          (if n > w.OPENSSL_RSA_MAX_MODULUS_BITS then
            [.BIO_printf sizeWarning [.int w.OPENSSL_RSA_MAX_MODULUS_BITS, .int n]]
          else []))
      simp only [cleanup, afterOptions, hi, hn, if_false]
      rw [hg]
      simp [State.log, State.set, State.logs]

/-- C4. Whenever a run parses its positional `numbits` argument and the parse
fails or yields a value `<= 0`, the run returns 1, never attempts to open the
output sink and makes no key-engine call (no `init_gen_str`, no configuration
call, no `EVP_PKEY_keygen`); the parsed text is the single positional
argument.  The parse is made in every run whose allocations succeed and whose
option loop runs to `OPT_EOF` with exactly one positional argument left. -/
theorem invalid_numbits_rejected (w : World) (v : Int) (prog : String) (opts : List Opt)
    (rest : List String) :
    (∀ a r, Event.opt_int a .num r ∈ (genrsa_main w v prog opts rest).trace →
        (r = none ∨ ∃ n, r = some n ∧ n ≤ 0) →
        rest = [a] ∧ w.opt_int a = r ∧
          (genrsa_main w v prog opts rest).ret = 1 ∧
          (∀ e ∈ (genrsa_main w v prog opts rest).trace, e.isSinkOpen = false) ∧
          (∀ e ∈ (genrsa_main w v prog opts rest).trace, e.isEngineCall = false)) ∧
      (∀ a s1, w.BN_new = true → w.BN_GENCB_new = true →
        optLoop w prog opts (loopEntry w v) = (true, s1) → rest = [a] →
        Event.opt_int a .num (w.opt_int a) ∈ (genrsa_main w v prog opts rest).trace) := by
  refine ⟨?_, fun a s1 h1 h2 hl hrest => numbits_parsed w v prog opts rest a s1 ⟨h1, h2⟩ hl hrest⟩
  intro a r hparse hbad
  obtain ⟨hrest, hi, -, -⟩ := numbits_event_origin w v prog opts rest a r hparse
  refine ⟨hrest, hi, ?_⟩
  rcases run_shape w v prog opts rest with
    ⟨P, l, vb, hr, hP, hout, hpass, hk⟩ |
    ⟨s1, d, s, hl, h1, h2, hgo, hs, hr, hP, hret, hout, hpass, heof, hf, hh⟩
  · rw [hr] at hparse ⊢
    simp only [cleanup] at hparse ⊢
    have hall : ∀ e ∈ P ++ cleanupLog l, e.isSinkOpen = false ∧ e.isEngineCall = false := by
      intro e he
      rcases List.mem_append.mp he with he | he
      · exact ⟨isSinkOpen_phase.1 e (hP e he), isEngineCall_phase.1 e (hP e he)⟩
      · have hc := cleanupLog_isCleanup l e he
        exact ⟨isSinkOpen_phase.2 e hc, isEngineCall_phase.2 e hc⟩
    refine ⟨?_, fun e he => (hall e he).1, fun e he => (hall e he).2⟩
    rcases hk with ⟨hk, -, -⟩ | ⟨-, -, -, hno⟩
    · exact hk
    · rcases List.mem_append.mp hparse with hx | hx
      · exact absurd hx (hno a r)
      · have := cleanupLog_isCleanup l _ hx
        simp [Event.isCleanup] at this
  · exfalso
    rcases hgo with hgo | ⟨b, n, hgo, hj, hn⟩
    · rw [hgo] at hrest; cases hrest
    · rw [hgo] at hrest
      cases hrest
      rw [hj] at hi
      rcases hbad with hbad | ⟨m, hbad, hm⟩
      · rw [hbad] at hi; cases hi
      · rw [hbad] at hi; cases hi; omega

theorem invalid_numbits_rejected_witness :
    (genrsa_main sampleWorld 0 "genrsa" [⟨OPT_VERBOSE, ""⟩] ["0"]).ret = 1 ∧
      (genrsa_main sampleWorld 0 "genrsa" [] ["abc"]).ret = 1 :=
  ⟨((invalid_numbits_rejected sampleWorld 0 "genrsa" [⟨OPT_VERBOSE, ""⟩] ["0"]).1 "0" (some 0)
      (by decide) (Or.inr ⟨0, rfl, by decide⟩)).2.2.1,
    ((invalid_numbits_rejected sampleWorld 0 "genrsa" [] ["abc"]).1 "abc" none
      (by decide) (Or.inl rfl)).2.2.1⟩

theorem generate_no_warning (w : World) (s : State) (g : List Event) (l1 : Locals)
    (hg : generate w s = ⟨l1, s.verbose, s.trace ++ g⟩) (args : List PrintfArg) :
    Event.BIO_printf sizeWarning args ∉ g := by
  obtain ⟨pass, h, k, e, g2, l2, hg2, hpaths⟩ := generate_paths w s
  rw [hg] at hg2
  have hgg : g = g2 := by
    have := congrArg State.trace hg2
    simpa using this
  subst hgg
  intro hx
  rcases hpaths with
    ⟨c1, hd, hr1, ho1, hp1⟩ | ⟨c1, c2, hd, hr1, ho1, hp1⟩ |
      ⟨⟨c1, c2⟩, hr1, ho1, hp1, he1, ⟨c3, hd⟩ | ⟨c3, c4, hd⟩ | ⟨c3, c4, c5, hd⟩ |
        ⟨c3, c4, c5, c6, hd⟩ | ⟨c3, c4, c5, c6, c7, hd⟩ | ⟨c3, c4, c5, c6, c7, c8, hd⟩⟩ |
      ⟨⟨c1, c2, c3, c4, c5, c6, c7, c8⟩, ho1, hp1, he1, ⟨c9, c10, hr1, hd⟩ |
        ⟨c9, c10, hr1, hd⟩ | ⟨c9, c10, hr1, hd⟩⟩ <;>
  · subst hd
    simp [openedLog, bitsLog, pubexpLog, primesLog, keygenLog, mem_echoLog,
      mem_progressLog, mem_ite_singleton, sizeWarning] at hx

/-- The advisory is only ever logged right after a parse of the single
positional argument that yielded a value above the maximum. -/
theorem warning_origin (w : World) (v : Int) (prog : String) (opts : List Opt)
    (rest : List String) (args : List PrintfArg)
    (h : Event.BIO_printf sizeWarning args ∈ (genrsa_main w v prog opts rest).trace) :
    ∃ a n, args = [.int w.OPENSSL_RSA_MAX_MODULUS_BITS, .int n] ∧
      Event.opt_int a .num (some n) ∈ (genrsa_main w v prog opts rest).trace ∧
      w.OPENSSL_RSA_MAX_MODULUS_BITS < n := by
  have hcl : ∀ l, Event.BIO_printf sizeWarning args ∉ cleanupLog l := by
    intro l hx
    simpa [Event.isCleanup] using cleanupLog_isCleanup l _ hx
  rcases genrsa_main_paths w v prog opts rest with ⟨ha, hr⟩ | ⟨s1, hb, hl, hr⟩ | ⟨s1, hb, hl, hr⟩
  · rw [hr] at h
    simp only [cleanup] at h
    rcases List.mem_append.mp h with hx | hx
    · simp at hx
    · exact absurd hx (hcl _)
  · obtain ⟨d, h1, h2, -⟩ := optLoop_inv w prog opts (loopEntry w v)
    rw [hl] at h1
    rw [hr] at h
    simp only [cleanup] at h h1
    rw [h1] at h
    rcases List.mem_append.mp h with hx | hx
    · rcases List.mem_append.mp hx with hx | hx
      · simp [loopEntry] at hx
      · simpa [Event.isOptionPhase, sizeWarning] using h2 _ hx
    · exact absurd hx (hcl _)
  · obtain ⟨d, h1, h2, -⟩ := optLoop_inv w prog opts (loopEntry w v)
    rw [hl] at h1
    simp only at h1
    have hs1 : Event.BIO_printf sizeWarning args ∉ s1.trace := by
      rw [h1]
      intro hx
      rcases List.mem_append.mp hx with hx | hx
      · simp [loopEntry] at hx
      · simpa [Event.isOptionPhase, sizeWarning] using h2 _ hx
    rw [hr] at h ⊢
    simp only [cleanup] at h ⊢
    rcases afterOptions_paths w prog rest s1 with
      (⟨b, hrest, hi, ha⟩ | ⟨b, n, hrest, hi, hn, ha⟩ | ⟨hlen, ha⟩) | ⟨hgo, ha⟩
    · rw [ha] at h
      simp only [State.log] at h
      rcases List.mem_append.mp h with hx | hx
      · rcases List.mem_append.mp hx with hx | hx
        · exact absurd hx hs1
        · simp at hx
      · exact absurd hx (hcl _)
    · rw [ha] at h
      simp only at h
      rcases List.mem_append.mp h with hx | hx
      · rcases List.mem_append.mp hx with hx | hx
        · exact absurd hx hs1
        · simp at hx
      · exact absurd hx (hcl _)
    · rw [ha] at h
      simp only [State.logs] at h
      rcases List.mem_append.mp h with hx | hx
      · rcases List.mem_append.mp hx with hx | hx
        · exact absurd hx hs1
        · simp [sizeWarning] at hx
      · exact absurd hx (hcl _)
    · obtain ⟨pass, hh, k, e, g, l1, hg, -⟩ := generate_paths w
        ⟨{ s1.l with num := numbitsValue w rest s1.l.num }, s1.verbose,
          s1.trace ++ numbitsLog w rest⟩
      rw [ha, hg] at h ⊢
      simp only at h ⊢
      rcases List.mem_append.mp h with hx | hx
      · rcases List.mem_append.mp hx with hx | hx
        · rcases List.mem_append.mp hx with hx | hx
          · exact absurd hx hs1
          · rcases hgo with hgo | ⟨b, n, hgo, hi, hn⟩
            · subst hgo
              simp [numbitsLog] at hx
            · subst hgo
              simp [numbitsLog, hi, mem_ite_singleton] at hx
              obtain ⟨hlt, rfl⟩ := hx
              exact ⟨b, n, rfl, by simp [numbitsLog, hi], hlt⟩
        · exact absurd hx (generate_no_warning w _ g l1 hg args)
      · exact absurd hx (hcl _)

/-- C5. Let the platform maximum be non-negative.  Whenever a run parses its
positional `numbits` argument to a value `n` above the maximum, it is not
rejected: the advisory is printed with the maximum and `n`, the pass phrase is
resolved next, then (if that succeeds) the sink is opened with `private = 1`,
and (if the sink and the engine context are set up) the length is configured
with exactly `n`; no length other than `n` is ever configured; and when every
collaborator succeeds the run generates the key, writes it and returns 0.
Conversely the advisory is only ever printed for a parsed value above the
maximum. -/
theorem oversized_numbits_advisory (w : World) (v : Int) (prog : String) (opts : List Opt)
    (rest : List String) (hmax : 0 ≤ w.OPENSSL_RSA_MAX_MODULUS_BITS) :
    (∀ a n, Event.opt_int a .num (some n) ∈ (genrsa_main w v prog opts rest).trace →
        w.OPENSSL_RSA_MAX_MODULUS_BITS < n →
        ∃ s1, optLoop w prog opts (loopEntry w v) = (true, s1) ∧
          Event.BIO_printf sizeWarning [.int w.OPENSSL_RSA_MAX_MODULUS_BITS, .int n] ∈
            (genrsa_main w v prog opts rest).trace ∧
          Event.app_passwd s1.l.passoutarg (w.app_passwd s1.l.passoutarg) ∈
            (genrsa_main w v prog opts rest).trace ∧
          (∀ p, w.app_passwd s1.l.passoutarg = some p →
            Event.bio_open_owner s1.l.outfile 1 (w.bio_open_owner s1.l.outfile 1).isSome ∈
              (genrsa_main w v prog opts rest).trace) ∧
          (∀ p h, w.app_passwd s1.l.passoutarg = some p →
            w.bio_open_owner s1.l.outfile 1 = some h → w.init_gen_str s1.l.eng = true →
            Event.EVP_PKEY_CTX_set_rsa_keygen_bits n (w.EVP_PKEY_CTX_set_rsa_keygen_bits n) ∈
              (genrsa_main w v prog opts rest).trace) ∧
          (∀ m r, Event.EVP_PKEY_CTX_set_rsa_keygen_bits m r ∈
            (genrsa_main w v prog opts rest).trace → m = n) ∧
          (w.allSucceed →
            (genrsa_main w v prog opts rest).ret = 0 ∧
              (∃ r, 0 < r ∧ Event.EVP_PKEY_keygen r ∈ (genrsa_main w v prog opts rest).trace) ∧
              (genrsa_main w v prog opts rest).trace.any Event.isKeyWritten = true)) ∧
      (∀ args, Event.BIO_printf sizeWarning args ∈ (genrsa_main w v prog opts rest).trace →
        ∃ a n, args = [.int w.OPENSSL_RSA_MAX_MODULUS_BITS, .int n] ∧
          Event.opt_int a .num (some n) ∈ (genrsa_main w v prog opts rest).trace ∧
          w.OPENSSL_RSA_MAX_MODULUS_BITS < n) := by
  constructor
  · intro a n hparse hlt
    obtain ⟨hrest, hi, hb, s1, hl⟩ := numbits_event_origin w v prog opts rest a _ hparse
    have hgo : rest = [] ∨ ∃ a n, rest = [a] ∧ w.opt_int a = some n ∧ 0 < n :=
      Or.inr ⟨a, n, hrest, hi, by omega⟩
    obtain ⟨d, s, g1, g2, hs, hr, hP, g7, g8, g9, g10, g11, g12⟩ :=
      run_reaches_generate w v prog opts rest s1 hb hl hgo
    obtain ⟨pass, h, k, e, g, l1, hg, hpaths⟩ := generate_paths w s
    have hnum : s.l.num = n := by
      rw [hs, hrest]
      simp [numbitsValue, hi]
    have hwarn : Event.BIO_printf sizeWarning [.int w.OPENSSL_RSA_MAX_MODULUS_BITS, .int n] ∈
        s.trace := by
      rw [hs, hrest]
      simp [numbitsLog, hi, hlt]
    have hpa : s.l.passoutarg = s1.l.passoutarg := by rw [hs]
    have hof : s.l.outfile = s1.l.outfile := by rw [hs]
    have hen : s.l.eng = s1.l.eng := by rw [hs]
    rw [hr, hg]
    simp only [cleanup]
    refine ⟨s1, hl, by simp [hwarn], ?_, ?_, ?_, ?_, ?_⟩
    · rw [← hpa]
      rcases hpaths with
        ⟨c1, hd, hr1, ho1, hp1⟩ | ⟨c1, c2, hd, hr1, ho1, hp1⟩ |
        ⟨⟨c1, c2⟩, hr1, ho1, hp1, he1, ⟨c3, hd⟩ | ⟨c3, c4, hd⟩ | ⟨c3, c4, c5, hd⟩ |
          ⟨c3, c4, c5, c6, hd⟩ | ⟨c3, c4, c5, c6, c7, hd⟩ | ⟨c3, c4, c5, c6, c7, c8, hd⟩⟩ |
        ⟨⟨c1, c2, c3, c4, c5, c6, c7, c8⟩, ho1, hp1, he1, ⟨c9, c10, hr1, hd⟩ |
          ⟨c9, c10, hr1, hd⟩ | ⟨c9, c10, hr1, hd⟩⟩ <;>
      · subst hd
        simp [openedLog, bitsLog, pubexpLog, primesLog, keygenLog, mem_echoLog,
          mem_progressLog, mem_ite_singleton, c1]
    · intro p hp
      rw [← hpa] at hp
      rw [← hof]
      rcases hpaths with
        ⟨c1, hd, hr1, ho1, hp1⟩ | ⟨c1, c2, hd, hr1, ho1, hp1⟩ |
        ⟨⟨c1, c2⟩, hr1, ho1, hp1, he1, ⟨c3, hd⟩ | ⟨c3, c4, hd⟩ | ⟨c3, c4, c5, hd⟩ |
          ⟨c3, c4, c5, c6, hd⟩ | ⟨c3, c4, c5, c6, c7, hd⟩ | ⟨c3, c4, c5, c6, c7, c8, hd⟩⟩ |
        ⟨⟨c1, c2, c3, c4, c5, c6, c7, c8⟩, ho1, hp1, he1, ⟨c9, c10, hr1, hd⟩ |
          ⟨c9, c10, hr1, hd⟩ | ⟨c9, c10, hr1, hd⟩⟩ <;>
      · subst hd
        first
          | (simp [openedLog, bitsLog, pubexpLog, primesLog, keygenLog, mem_echoLog,
            mem_progressLog, mem_ite_singleton, c1, c2] at hp ⊢)
          | (simp [openedLog, bitsLog, pubexpLog, primesLog, keygenLog, mem_echoLog,
            mem_progressLog, mem_ite_singleton, c1] at hp ⊢)
    · intro p h2 hp ho hin
      rw [← hpa] at hp
      rw [← hof] at ho
      rw [← hen] at hin
      rw [← hnum]
      rcases hpaths with
        ⟨c1, hd, hr1, ho1, hp1⟩ | ⟨c1, c2, hd, hr1, ho1, hp1⟩ |
        ⟨⟨c1, c2⟩, hr1, ho1, hp1, he1, ⟨c3, hd⟩ | ⟨c3, c4, hd⟩ | ⟨c3, c4, c5, hd⟩ |
          ⟨c3, c4, c5, c6, hd⟩ | ⟨c3, c4, c5, c6, c7, hd⟩ | ⟨c3, c4, c5, c6, c7, c8, hd⟩⟩ |
        ⟨⟨c1, c2, c3, c4, c5, c6, c7, c8⟩, ho1, hp1, he1, ⟨c9, c10, hr1, hd⟩ |
          ⟨c9, c10, hr1, hd⟩ | ⟨c9, c10, hr1, hd⟩⟩ <;>
      · subst hd
        first
          | (simp [openedLog, bitsLog, pubexpLog, primesLog, keygenLog, mem_echoLog,
            mem_progressLog, mem_ite_singleton, c1, c2, c3] at hp ho hin ⊢)
          | (simp [openedLog, bitsLog, pubexpLog, primesLog, keygenLog, mem_echoLog,
            mem_progressLog, mem_ite_singleton, c1, c2] at hp ho hin ⊢)
          | (simp [openedLog, bitsLog, pubexpLog, primesLog, keygenLog, mem_echoLog,
            mem_progressLog, mem_ite_singleton, c1] at hp ho hin ⊢)
    · intro m r hx
      have hx := mem_run s.trace g l1 hP _ hx rfl rfl
      rw [← hnum]
      rcases hpaths with
        ⟨c1, hd, hr1, ho1, hp1⟩ | ⟨c1, c2, hd, hr1, ho1, hp1⟩ |
        ⟨⟨c1, c2⟩, hr1, ho1, hp1, he1, ⟨c3, hd⟩ | ⟨c3, c4, hd⟩ | ⟨c3, c4, c5, hd⟩ |
          ⟨c3, c4, c5, c6, hd⟩ | ⟨c3, c4, c5, c6, c7, hd⟩ | ⟨c3, c4, c5, c6, c7, c8, hd⟩⟩ |
        ⟨⟨c1, c2, c3, c4, c5, c6, c7, c8⟩, ho1, hp1, he1, ⟨c9, c10, hr1, hd⟩ |
          ⟨c9, c10, hr1, hd⟩ | ⟨c9, c10, hr1, hd⟩⟩ <;>
      · subst hd
        simp [openedLog, bitsLog, pubexpLog, primesLog, keygenLog, mem_echoLog,
          mem_progressLog, mem_ite_singleton] at hx <;> exact hx.1
    · intro hall
      obtain ⟨⟨a1, a2, a3, a4, a5, a6⟩, a7, a8, a9, a10⟩ := hall
      have b1 := a1 s.l.passoutarg
      have b2 := a2 s.l.outfile 1
      have b3 := a3 s.l.eng
      have b4 := a4 s.l.num
      have b5 := a5 s.l.f4
      have b6 := a6 s.l.f4
      have b7 := a7 s.l.primes
      have b8 := a8 s.l.num s.l.f4 s.l.primes
      obtain ⟨k1, hk1⟩ := Option.isSome_iff_exists.mp b8.2
      rw [run_any s.trace g l1 hP _ isKeyWritten_phase.1 isKeyWritten_phase.2]
      rcases hpaths with
        ⟨c1, hd, hr1, ho1, hp1⟩ | ⟨c1, c2, hd, hr1, ho1, hp1⟩ |
        ⟨⟨c1, c2⟩, hr1, ho1, hp1, he1, ⟨c3, hd⟩ | ⟨c3, c4, hd⟩ | ⟨c3, c4, c5, hd⟩ |
          ⟨c3, c4, c5, c6, hd⟩ | ⟨c3, c4, c5, c6, c7, hd⟩ | ⟨c3, c4, c5, c6, c7, c8, hd⟩⟩ |
        ⟨⟨c1, c2, c3, c4, c5, c6, c7, c8⟩, ho1, hp1, he1, ⟨c9, c10, hr1, hd⟩ |
          ⟨c9, c10, hr1, hd⟩ | ⟨c9, c10, hr1, hd⟩⟩ <;>
      · subst hd
        first
          | (simp [c1] at b1; done)
          | (simp [c2] at b2; done)
          | (simp [c3] at b3; done)
          | (exact absurd b4 (not_lt.mpr c4))
          | (simp [c5] at b5; done)
          | (exact absurd b6 (not_lt.mpr c6))
          | (exact absurd b7 (not_lt.mpr c7))
          | (exact absurd c8 b8.1.ne')
          | (have hkk : k = some k1 := by rw [← c8.2, hk1]
             subst hkk
             have b9 := a9 k1
             simp [c10] at b9
             done)
          | (have hkk : k = some k1 := by rw [← c8.2, hk1]
             subst hkk
             have b10 := a10 h k1 s.l.enc pass
             simp [c10] at b10
             done)
          | (refine ⟨hr1, ⟨_, b8.1, ?_⟩, ?_⟩
             · simp [keygenLog]
             · simp [openedLog, bitsLog, pubexpLog, primesLog, keygenLog, mem_echoLog,
          mem_progressLog, mem_ite_singleton, echoLog_any,
                 progressLog_any, any_ite_singleton, Event.isKeyWritten])
  · exact fun args h => warning_origin w v prog opts rest args h

theorem oversized_numbits_advisory_witness :
    (genrsa_main lenientWorld 0 "genrsa" [] ["20000"]).ret = 0 ∧
      Event.EVP_PKEY_CTX_set_rsa_keygen_bits 20000 1 ∈
        (genrsa_main lenientWorld 0 "genrsa" [] ["20000"]).trace :=
  match (oversized_numbits_advisory lenientWorld 0 "genrsa" [] ["20000"] (by decide)).1
      "20000" 20000 (by decide) (by decide) with
  | ⟨_, _, _, _, _, _, _, hall⟩ =>
    ⟨(hall ⟨⟨fun a => by cases a <;> rfl, fun _ _ => rfl, fun _ => rfl,
        fun _ => (by decide : (0 : Int) < 1), fun _ => rfl,
        fun _ => (by decide : (0 : Int) < 1)⟩, fun _ => (by decide : (0 : Int) < 1),
        fun _ _ _ => ⟨(by decide : (0 : Int) < 1), rfl⟩, fun _ => rfl,
        fun _ _ _ _ => rfl⟩).1, by decide⟩

/-- C8 fails at a negative return of `EVP_PKEY_keygen`.  When the engine
reports a failed generation with the return value -1 (and leaves `pkey`
`NULL`), the run prints no "Error generating RSA key" and goes on to call
`PEM_write_bio_PrivateKey` on the `NULL` key: a key write is attempted with no
successful generation before it, and the exit code is whatever that write
yields, 1 when it fails and 0 when it reports success.  The three
configuration calls do treat a negative return as failure: `-primes 1` with an
engine answering -2 prints the error and writes nothing; and a generation
returning 0 is rejected the same way. -/
theorem negative_keygen_return_not_rejected :
    (Event.EVP_PKEY_keygen (-1) ∈ (genrsa_main failedKeygenWorld 0 "genrsa" [] []).trace ∧
      Event.BIO_printf "Error generating RSA key\n" [] ∉
        (genrsa_main failedKeygenWorld 0 "genrsa" [] []).trace ∧
      Event.PEM_write_bio_PrivateKey none none none false ∈
        (genrsa_main failedKeygenWorld 0 "genrsa" [] []).trace ∧
      noneBefore Event.isKeyWrite Event.isKeygenOk
        (genrsa_main failedKeygenWorld 0 "genrsa" [] []).trace = false ∧
      (genrsa_main failedKeygenWorld 0 "genrsa" [] []).ret = 1) ∧
    (Event.EVP_PKEY_keygen (-1) ∈
        (genrsa_main failedKeygenWrittenWorld 0 "genrsa" [] []).trace ∧
      Event.PEM_write_bio_PrivateKey none none none true ∈
        (genrsa_main failedKeygenWrittenWorld 0 "genrsa" [] []).trace ∧
      (genrsa_main failedKeygenWrittenWorld 0 "genrsa" [] []).ret = 0) ∧
    (Event.EVP_PKEY_CTX_set_rsa_keygen_primes 1 (-2) ∈
        (genrsa_main sampleWorld 0 "genrsa" [⟨OPT_PRIMES, "1"⟩] []).trace ∧
      Event.BIO_printf "Error setting number of primes\n" [] ∈
        (genrsa_main sampleWorld 0 "genrsa" [⟨OPT_PRIMES, "1"⟩] []).trace ∧
      (genrsa_main sampleWorld 0 "genrsa" [⟨OPT_PRIMES, "1"⟩] []).trace.any
        Event.isKeyWrite = false ∧
      (genrsa_main sampleWorld 0 "genrsa" [⟨OPT_PRIMES, "1"⟩] []).ret = 1) ∧
    (Event.EVP_PKEY_keygen 0 ∈
        (genrsa_main lateCheckWorld 0 "genrsa" [⟨OPT_PRIMES, "1"⟩] []).trace ∧
      (genrsa_main lateCheckWorld 0 "genrsa" [⟨OPT_PRIMES, "1"⟩] []).trace.any
        Event.isKeyWrite = false) := by
  decide

theorem exponent_last_flag_wins_witness :
    ∃ r, 0 < r ∧ Event.EVP_PKEY_CTX_set_rsa_keygen_pubexp 3 r ∈
      (genrsa_main sampleWorld 0 "genrsa" [⟨OPT_F4, ""⟩, ⟨OPT_3, ""⟩] []).trace :=
  (exponent_last_flag_wins sampleWorld 0 "genrsa" [⟨OPT_F4, ""⟩, ⟨OPT_3, ""⟩] []).2.2.1
    (by decide)

end Genrsa
